import Mathlib

/-!
# terraform-provider-dedicated: transport retry loop and field-extraction helpers

A shallow embedding of

* `internal/client/client.go`: `Client.doRequest` (the authenticated request
  with its three-attempt retry loop) and the `Get`/`Post`/`Delete` wrappers;
* `internal/resources/database.go`: `mapDatabaseParams`, `selectDatabaseUser`,
  `extractStripeCheckoutURL`, `credentialsAreReady`, the id coercion of
  `resourceDatabaseCreate`, the `Refresh` closure of
  `waitForDatabaseCredentials`, and `resourceDatabaseRead`,
  `resourceDatabaseUpdate` and `resourceDatabaseDelete`.

Go's `interface{}` trees produced by `encoding/json` are the type `JSON`;
`map[string]string` is an association list with unique keys; the standard
library (`json.Marshal`, `json.Unmarshal`, `http.NewRequest`, the HTTP round
trip, `fmt.Sprintf("%v", _)`) is a parameter of the functions that call it.
-/

namespace Filess

/-! ## Untyped values -/

/-- A finite `float64`: the value is `(-1)^neg * mant * 2^exp`, with a
significand below `2^53` and a binary exponent between -1074 and 971 (the
largest finite value is `(2^53 - 1) * 2^971`).  `encoding/json` decodes every
JSON number of an `interface{}` tree into such a value (it rejects numbers
that overflow, so no infinity or NaN arises). -/
structure Float64 where
  neg : Bool
  mant : Nat
  exp : Int
  mant_lt : mant < 2 ^ 53 := by decide
  exp_ge : -1074 ≤ exp := by decide
  exp_le : exp ≤ 971 := by decide
deriving DecidableEq, Repr

/-- The dynamic values `encoding/json` stores in an `interface{}`:
`nil`, `bool`, `float64`, `string`, `[]interface{}` and
`map[string]interface{}`. -/
inductive JSON where
  | null : JSON
  | bool : Bool → JSON
  | num : Float64 → JSON
  | str : String → JSON
  | arr : List JSON → JSON
  | obj : List (String × JSON) → JSON

/-- Go's `m[key]` on a `map[string]interface{}`: the stored value, or the nil
interface when the key is absent. -/
def JSON.index (m : List (String × JSON)) (key : String) : JSON :=
  match m.lookup key with
  | some v => v
  | none => JSON.null

/-- Go's `v, _ := x.(string)`: the string held by `x`, or `""` when `x` holds
anything else (the nil interface included). -/
def JSON.asString : JSON → String
  | JSON.str s => s
  | _ => ""

/-! ## `map[string]string` -/

/-- A Go `map[string]string` as an association list. -/
abbrev StrMap := List (String × String)

/-- Go's `v, ok := m[key]`. -/
def StrMap.get? (m : StrMap) (key : String) : Option String :=
  m.lookup key

/-- Go's `m[key]`: the zero value `""` when the key is absent. -/
def StrMap.get (m : StrMap) (key : String) : String :=
  (StrMap.get? m key).getD ""

/-- Go's `m[key] = value`: replaces the binding of `key` if there is one,
adds one otherwise. -/
def StrMap.set : StrMap → String → String → StrMap
  | [], key, value => [(key, value)]
  | (k, v) :: rest, key, value =>
    if k = key then (k, value) :: rest else (k, v) :: StrMap.set rest key value

/-- The keys of a map. -/
def StrMap.keys (m : StrMap) : List String :=
  m.map Prod.fst

/-! ## Transport (`internal/client/client.go`) -/

/-- The `Client` struct; its `HTTPClient` is the `Transport` passed to
`doRequest`. -/
structure Client where
  BaseURL : String
  APIToken : String

/-- The `APIError` struct. -/
structure APIError where
  StatusCode : Int
  Message : String
deriving DecidableEq, Repr

/-- The `APIResponse` struct: the `{msg, data}` envelope. -/
structure APIResponse where
  Msg : String
  Data : JSON

/-- The `error` values `doRequest` returns. -/
inductive Error where
  | marshaling (cause : String)
  | creatingRequest
  | emptyToken
  | recreatingRequest
  | makingRequest (cause : String)
  | readingBody (cause : String)
  | api (e : APIError)
  | unmarshaling (cause : String)
deriving DecidableEq, Repr

/-- An `*http.Request` as `http.NewRequest` builds it from a `*bytes.Buffer`
body: `ContentLength` is the buffer's `Len()` and the body is the buffer's
unread bytes at that moment (`http.NoBody` when there are none). -/
structure Request where
  method : String
  url : String
  header : List (String × String)
  contentLength : Nat
  body : List Nat
deriving DecidableEq, Repr

/-- What one `c.HTTPClient.Do(req)` followed by `io.ReadAll(resp.Body)` ends in. -/
inductive Outcome where
  | doErr (cause : String)
  | readErr (status : Int) (cause : String)
  | response (status : Int) (body : String)
deriving DecidableEq, Repr

/-- One round trip: the outcome, and how many bytes of the request body the
transport read from the request's body reader while sending. -/
structure Exchange where
  consumed : Nat
  outcome : Outcome
deriving DecidableEq, Repr

/-- The HTTP client, as the exchanges it produces at attempt 0, 1, 2, ... of
one `doRequest` call. -/
abbrev Transport := Nat → Exchange

/-- The standard-library functions `doRequest` calls. -/
structure Lib where
  /-- The result of `json.Marshal(body)`. -/
  marshal : JSON → Except String (List Nat)
  /-- Whether `http.NewRequest(method, url, _)` accepts the method and URL. -/
  newRequestOk : String → String → Bool
  /-- The string `errorResp["error"].(string)` after
  `json.Unmarshal(respBody, &errorResp)`, when the body is a JSON object
  holding a string under `error`. -/
  errorField : String → Option String
  /-- The result of `json.Unmarshal(respBody, &apiResp)`. -/
  unmarshalEnvelope : String → Except String APIResponse

/-- What `doRequest` returns (`resp`, `err`), together with the requests it
handed to `HTTPClient.Do`, in order. -/
structure Run where
  resp : Option APIResponse
  err : Option Error
  sent : List Request

/-- The call `http.NewRequest(method, url, reqBody)` where `reqBody` is nil or a
`*bytes.Buffer` whose unread bytes are given. -/
def NewRequest (lib : Lib) (method url : String) (reqBody : Option (List Nat)) :
    Option Request :=
  if lib.newRequestOk method url then
    some { method := method, url := url, header := [],
           contentLength := (reqBody.getD []).length, body := reqBody.getD [] }
  else none

/-- The call `req.Header.Set(key, value)`. -/
def Request.setHeader (req : Request) (key value : String) : Request :=
  { req with header := (req.header.filter (fun kv => kv.1 != key)) ++ [(key, value)] }

/-- The three `req.Header.Set` calls (lines 61-63 and 77-79). -/
def setHeaders (c : Client) (req : Request) : Request :=
  ((req.setHeader "Authorization" ("Bearer " ++ c.APIToken)).setHeader
    "Content-Type" "application/json").setHeader "Accept" "application/json"

/-- Lines 96-107: the `APIError` built from a non-2xx response. -/
def mkAPIError (lib : Lib) (status : Int) (respBody : String) : APIError :=
  match lib.errorField respBody with
  | some errorMsg =>
    if errorMsg ≠ "" then { StatusCode := status, Message := errorMsg }
    else { StatusCode := status, Message := respBody }
  | none => { StatusCode := status, Message := respBody }

/-- The constant `maxRetries := 3`. -/
def maxRetries : Nat := 3

/-- The `for attempt := 0; attempt < maxRetries; attempt++` loop of
`doRequest` (lines 68-125).  `fuel` is the number of iterations left
(`maxRetries - attempt`).  `reqBody` is the one `bytes.Buffer` made before the
loop, as its unread bytes: `http.NewRequest` wraps the buffer itself as the
request body, so the round trip of an attempt reads from it and the request
rebuilt on line 73 sees what is left.  The `time.Sleep` backoff changes no
value and is left out. -/
def attemptLoop (lib : Lib) (net : Transport) (c : Client) (method path : String) :
    Nat → Nat → Option (List Nat) → Request → Option Error → List Request → Run
  | 0, _, _, _, lastErr, sent => { resp := none, err := lastErr, sent := sent }
  | fuel + 1, attempt, reqBody, req, _, sent =>
    let rebuilt : Option Request :=
      if attempt > 0 then
        (NewRequest lib method (c.BaseURL ++ path) reqBody).map (setHeaders c)
      else some req
    match rebuilt with
    | none => { resp := none, err := some Error.recreatingRequest, sent := sent }
    | some req =>
      let ex := net attempt
      let reqBody := reqBody.map (fun b => b.drop ex.consumed)
      let sent := sent ++ [req]
      match ex.outcome with
      | Outcome.doErr cause =>
        attemptLoop lib net c method path fuel (attempt + 1) reqBody req
          (some (Error.makingRequest cause)) sent
      | Outcome.readErr _ cause =>
        attemptLoop lib net c method path fuel (attempt + 1) reqBody req
          (some (Error.readingBody cause)) sent
      | Outcome.response status respBody =>
        if status < 200 ∨ status ≥ 300 then
          let lastErr := some (Error.api (mkAPIError lib status respBody))
          if status = 401 ∧ attempt < maxRetries - 1 then
            attemptLoop lib net c method path fuel (attempt + 1) reqBody req lastErr sent
          else { resp := none, err := lastErr, sent := sent }
        else
          match lib.unmarshalEnvelope respBody with
          | Except.error cause =>
            { resp := none, err := some (Error.unmarshaling cause), sent := sent }
          | Except.ok apiResp => { resp := some apiResp, err := none, sent := sent }

/-- Lines 43-50 of `doRequest`: the bytes of the `bytes.Buffer` built from
`json.Marshal(body)`, or no reader at all when `body` is nil. -/
def marshalBody (lib : Lib) (body : Option JSON) : Except String (Option (List Nat)) :=
  match body with
  | none => Except.ok none
  | some b =>
    match lib.marshal b with
    | Except.error cause => Except.error cause
    | Except.ok jsonBody => Except.ok (some jsonBody)

/-- The method `Client.doRequest` (lines 42-126). -/
def doRequest (lib : Lib) (net : Transport) (c : Client) (method path : String)
    (body : Option JSON) : Run :=
  match marshalBody lib body with
  | Except.error cause => { resp := none, err := some (Error.marshaling cause), sent := [] }
  | Except.ok reqBody =>
    match NewRequest lib method (c.BaseURL ++ path) reqBody with
    | none => { resp := none, err := some Error.creatingRequest, sent := [] }
    | some req =>
      if c.APIToken = "" then { resp := none, err := some Error.emptyToken, sent := [] }
      else attemptLoop lib net c method path maxRetries 0 reqBody (setHeaders c req) none []

/-- The method `Client.Get`. -/
def Client.Get (lib : Lib) (net : Transport) (c : Client) (path : String) : Run :=
  doRequest lib net c "GET" path none

/-- The method `Client.Post`.  A nil `body` (the nil interface, `JSON.null`)
reaches `doRequest` as nil, where `if body != nil` skips `json.Marshal`. -/
def Client.Post (lib : Lib) (net : Transport) (c : Client) (path : String) (body : JSON) : Run :=
  match body with
  | JSON.null => doRequest lib net c "POST" path none
  | body => doRequest lib net c "POST" path (some body)

/-- The method `Client.Delete`. -/
def Client.Delete (lib : Lib) (net : Transport) (c : Client) (path : String) : Run :=
  doRequest lib net c "DELETE" path none

/-! ## Resource controller (`internal/resources/database.go`) -/

/-- The integer nearest to `mant * 2^exp`, ties going to the even one: the
digits `strconv` prints for precision 0. -/
def Float64.roundHalfEven (f : Float64) : Nat :=
  match f.exp with
  | Int.ofNat e => f.mant * 2 ^ e
  | Int.negSucc e =>
    let d := 2 ^ (e + 1)
    let q := f.mant / d
    let r := f.mant % d
    if 2 * r < d then q
    else if 2 * r > d then q + 1
    else if q % 2 = 0 then q else q + 1

/-- Go's `fmt.Sprintf("%.0f", v)` for a finite `float64`: the sign bit prints
as `-`, then the magnitude rounded to an integer. -/
def sprintF0 (f : Float64) : String :=
  (if f.neg then "-" else "") ++ toString f.roundHalfEven

/-- The `switch v := database["id"].(type)` of `resourceDatabaseCreate`
(lines 200-208); `sprintV` is `fmt.Sprintf("%v", _)`. -/
def createDatabaseId (sprintV : JSON → String) (id : JSON) : String :=
  match id with
  | JSON.num v => sprintF0 v
  | JSON.str v => v
  | v => sprintV v

/-- The closure `idToString` of `resourceDatabaseRead` (lines 266-275). -/
def idToString (sprintV : JSON → String) (v : JSON) : String :=
  match v with
  | JSON.num val => sprintF0 val
  | JSON.str val => val
  | val => sprintV val

/-- One iteration of the `for _, p := range params` loop of
`mapDatabaseParams` (lines 393-406). -/
def paramStep (result : StrMap) (p : JSON) : StrMap :=
  match p with
  | JSON.obj paramMap =>
    let key := (JSON.index paramMap "key").asString
    let value := (JSON.index paramMap "value").asString
    if key = "" then result else StrMap.set result key value
  | _ => result

/-- The function `mapDatabaseParams` (lines 382-409). -/
def mapDatabaseParams (raw : JSON) : StrMap :=
  let result : StrMap := [("database_hostname", ""), ("database_service_port", "")]
  match raw with
  | JSON.arr params => params.foldl paramStep result
  | _ => result

/-- The `for _, u := range users` loop of `selectDatabaseUser` (lines 418-442),
started with the current `fallbackUsername` and `fallbackPassword`. -/
def selectLoop : List JSON → String → String → String × String
  | [], fallbackUsername, fallbackPassword => (fallbackUsername, fallbackPassword)
  | u :: rest, fallbackUsername, fallbackPassword =>
    match u with
    | JSON.obj userMap =>
      let username := (JSON.index userMap "username").asString
      let password := (JSON.index userMap "password").asString
      let role := (JSON.index userMap "role").asString
      if username = "" ∨ password = "" then selectLoop rest fallbackUsername fallbackPassword
      else if role = "root" ∨ username = "root" then (username, password)
      else if fallbackUsername = "" then selectLoop rest username password
      else selectLoop rest fallbackUsername fallbackPassword
    | _ => selectLoop rest fallbackUsername fallbackPassword

/-- The function `selectDatabaseUser` (lines 411-443). -/
def selectDatabaseUser (raw : JSON) : String × String :=
  match raw with
  | JSON.arr users => if users.length = 0 then ("", "") else selectLoop users "" ""
  | _ => ("", "")

/-- The function `extractStripeCheckoutURL` (lines 445-454). -/
def extractStripeCheckoutURL (data : List (String × JSON)) : String :=
  match data.lookup "stripeCheckoutSession" with
  | some (JSON.obj sessionMap) =>
    let url := (JSON.index sessionMap "url").asString
    if url ≠ "" then url else ""
  | _ => ""

/-- The function `credentialsAreReady` (lines 372-380). -/
def credentialsAreReady (data : List (String × JSON)) : Bool :=
  let params := mapDatabaseParams (JSON.index data "databaseParams")
  if StrMap.get params "database_hostname" = "" ∨
      StrMap.get params "database_service_port" = "" then false
  else
    let user := selectDatabaseUser (JSON.index data "databaseUsers")
    decide (user.1 ≠ "" ∧ user.2 ≠ "")

/-- The errors the `Refresh` closure returns.  `nilResponse` stands for the
nil dereference of `resp.Data` when `Get` returns neither a response nor an
error. -/
inductive PollError where
  | transport (e : Error)
  | unexpectedFormat
  | nilResponse

/-- What the `Refresh` closure returns: an error, or the response object with
the state it reports (and the checkout URL it logged a warning for, if any). -/
inductive Poll where
  | failed (e : PollError)
  | observed (data : List (String × JSON)) (state : String) (warned : Option String)

/-- The body of the `Refresh` closure of `waitForDatabaseCredentials`
(lines 333-356), applied to what `c.Get` returned. -/
def refreshOn (got : Run) : Poll :=
  match got.err, got.resp with
  | some e, _ => Poll.failed (PollError.transport e)
  | none, none => Poll.failed PollError.nilResponse
  | none, some resp =>
    match resp.Data with
    | JSON.obj data =>
      let status := (JSON.index data "status").asString
      let url := extractStripeCheckoutURL data
      let warned := if url ≠ "" then some url else none
      if credentialsAreReady data then Poll.observed data status warned
      else Poll.observed data "waiting_credentials" warned
    | _ => Poll.failed PollError.unexpectedFormat

/-- The `Refresh` closure of `waitForDatabaseCredentials`. -/
def Refresh (lib : Lib) (net : Transport) (c : Client) (databaseId : String) : Poll :=
  refreshOn (Client.Get lib net c ("/api/v1/databases/" ++ databaseId))

/-! ## Read and Delete -/

/-- The `schema.ResourceData` of the resource: its identity (`d.Id()`) and the
attributes written with `d.Set`.  The schema checks the SDK runs inside
`d.Set` are outside this repository; the code ignores their result. -/
structure ResourceData where
  id : String
  attrs : List (String × JSON)

/-- Writing one attribute into the attribute map. -/
def attrSet : List (String × JSON) → String → JSON → List (String × JSON)
  | [], key, value => [(key, value)]
  | (k, v) :: rest, key, value =>
    if k = key then (k, value) :: rest else (k, v) :: attrSet rest key value

/-- The call `d.SetId(id)`. -/
def ResourceData.SetId (d : ResourceData) (id : String) : ResourceData :=
  { d with id := id }

/-- The call `d.Set(key, value)`. -/
def ResourceData.Set (d : ResourceData) (key : String) (value : JSON) : ResourceData :=
  { d with attrs := attrSet d.attrs key value }

/-- One `diag.Diagnostic`: the error diagnostic `diag.FromErr(err)` builds, or
a warning. -/
inductive Diagnostic where
  | error (e : Error)
  | warning (summary detail : String)

/-- How a resource operation ends: it returns its diagnostics (`nil` is the
empty list) with the resource data as it left it, or it panics on an
unchecked type assertion or nil dereference. -/
inductive OpResult where
  | returned (d : ResourceData) (diags : List Diagnostic)
  | panicked

/-- The body of `resourceDatabaseRead` (lines 255-301), applied to what
`c.Get` returned. -/
def readOn (sprintV : JSON → String) (d : ResourceData) (got : Run) : OpResult :=
  match got.err with
  | some err =>
    match err with
    | Error.api apiErr =>
      if apiErr.StatusCode = 404 then OpResult.returned (d.SetId "") []
      else OpResult.returned d [Diagnostic.error err]
    | _ => OpResult.returned d [Diagnostic.error err]
  | none =>
    match got.resp with
    | none => OpResult.panicked
    | some resp =>
      match resp.Data with
      | JSON.obj data =>
        let d := d.Set "name" (JSON.index data "name")
        let d := d.Set "description" (JSON.index data "description")
        let d := d.Set "status" (JSON.index data "status")
        let d := d.Set "engine_id" (JSON.str (idToString sprintV (JSON.index data "engineId")))
        let d := d.Set "region_id" (JSON.str (idToString sprintV (JSON.index data "regionId")))
        let d :=
          match data.lookup "createdAt" with
          | some createdAt => d.Set "created_at" createdAt
          | none => d
        let url := extractStripeCheckoutURL data
        let d :=
          if url ≠ "" then d.Set "stripe_checkout_url" (JSON.str url)
          else d.Set "stripe_checkout_url" (JSON.str "")
        let params := mapDatabaseParams (JSON.index data "databaseParams")
        let d := d.Set "database_hostname" (JSON.str (StrMap.get params "database_hostname"))
        let d := d.Set "database_service_port"
          (JSON.str (StrMap.get params "database_service_port"))
        let user := selectDatabaseUser (JSON.index data "databaseUsers")
        let d := d.Set "database_username" (JSON.str user.1)
        let d := d.Set "database_password" (JSON.str user.2)
        OpResult.returned d []
      | _ => OpResult.panicked

/-- The function `resourceDatabaseRead` (lines 251-302). -/
def resourceDatabaseRead (lib : Lib) (net : Transport) (c : Client)
    (sprintV : JSON → String) (d : ResourceData) : OpResult :=
  readOn sprintV d (Client.Get lib net c ("/api/v1/databases/" ++ d.id))

/-- The function `resourceDatabaseUpdate` (lines 304-308). -/
def resourceDatabaseUpdate (lib : Lib) (net : Transport) (c : Client)
    (sprintV : JSON → String) (d : ResourceData) : OpResult :=
  resourceDatabaseRead lib net c sprintV d

/-- The body of `resourceDatabaseDelete` (lines 314-323), applied to what
`c.Delete` returned. -/
def deleteOn (d : ResourceData) (got : Run) : OpResult :=
  match got.err with
  | some err =>
    match err with
    | Error.api apiErr =>
      if apiErr.StatusCode = 404 then OpResult.returned (d.SetId "") []
      else OpResult.returned d [Diagnostic.error err]
    | _ => OpResult.returned d [Diagnostic.error err]
  | none => OpResult.returned (d.SetId "") []

/-- The function `resourceDatabaseDelete` (lines 310-324). -/
def resourceDatabaseDelete (lib : Lib) (net : Transport) (c : Client)
    (d : ResourceData) : OpResult :=
  deleteOn d (Client.Delete lib net c ("/api/v1/databases/" ++ d.id))

/-! ## Outcomes of an attempt, as the retry policy classifies them -/

/-- A network-level failure: `HTTPClient.Do` or `io.ReadAll` returned an error. -/
def Outcome.isNetworkFailure : Outcome → Bool
  | Outcome.doErr _ => true
  | Outcome.readErr _ _ => true
  | Outcome.response _ _ => false

/-- The attempt answered with HTTP status 401. -/
def Outcome.is401 : Outcome → Bool
  | Outcome.response status _ => decide (status = 401)
  | _ => false

/-- A retriable outcome: a network-level failure or a 401 answer. -/
def Outcome.retriable (o : Outcome) : Bool :=
  o.isNetworkFailure || o.is401

/-! ## Reading one entry of the response lists -/

/-- The `key` a `databaseParams` entry is read with (lines 394-399): `""` when
the entry is not an object or its `key` is missing or not a string. -/
def entryKey : JSON → String
  | JSON.obj paramMap => (JSON.index paramMap "key").asString
  | _ => ""

/-- The `value` a `databaseParams` entry is read with (line 400). -/
def entryValue : JSON → String
  | JSON.obj paramMap => (JSON.index paramMap "value").asString
  | _ => ""

/-- The initial `result` of `mapDatabaseParams` (lines 383-386). -/
def defaultParams : StrMap :=
  [("database_hostname", ""), ("database_service_port", "")]

/-- The `username` a `databaseUsers` entry is read with (lines 419-424). -/
def entryUsername : JSON → String
  | JSON.obj userMap => (JSON.index userMap "username").asString
  | _ => ""

/-- The `password` a `databaseUsers` entry is read with (line 425). -/
def entryPassword : JSON → String
  | JSON.obj userMap => (JSON.index userMap "password").asString
  | _ => ""

/-- The `role` a `databaseUsers` entry is read with (line 426). -/
def entryRole : JSON → String
  | JSON.obj userMap => (JSON.index userMap "role").asString
  | _ => ""

/-- An entry with both username and password non-empty. -/
def isPopulated (u : JSON) : Bool :=
  decide (entryUsername u ≠ "" ∧ entryPassword u ≠ "")

/-- A populated entry whose role or username is `"root"`. -/
def isRootEntry (u : JSON) : Bool :=
  isPopulated u && decide (entryRole u = "root" ∨ entryUsername u = "root")

/-- A `float64` with zero fractional part. -/
def Float64.isInteger (f : Float64) : Bool :=
  match f.exp with
  | Int.ofNat _ => true
  | Int.negSucc e => decide (f.mant % 2 ^ (e + 1) = 0)

/-- The magnitude of a `float64` with zero fractional part. -/
def Float64.magnitude (f : Float64) : Nat :=
  match f.exp with
  | Int.ofNat e => f.mant * 2 ^ e
  | Int.negSucc e => f.mant / 2 ^ (e + 1)

/-- The integer a `float64` with zero fractional part denotes. -/
def Float64.toInt (f : Float64) : Int :=
  if f.neg then -(f.magnitude : Int) else (f.magnitude : Int)

/-- The `float64` with the given sign, significand and exponent, when they are
in range. -/
def Float64.ofParts (neg : Bool) (mant : Nat) (exp : Int) : Option Float64 :=
  if h : mant < 2 ^ 53 ∧ -1074 ≤ exp ∧ exp ≤ 971 then
    some { neg := neg, mant := mant, exp := exp,
           mant_lt := h.1, exp_ge := h.2.1, exp_le := h.2.2 }
  else none

/-- The least shift `s` at or after the given one, among `fuel` candidates,
for which `n / 2^s` fits the 53-bit significand. -/
def findShift : Nat → Nat → Nat → Option Nat
  | 0, _, _ => none
  | fuel + 1, s, n => if n / 2 ^ s < 2 ^ 53 then some s else findShift fuel (s + 1) n

/-- What `json.Unmarshal` (`client.go` line 118) stores in the `interface{}`
tree for a JSON number with zero fractional part, given by its sign and its
integer magnitude: `strconv.ParseFloat(_, 64)` rounds the number to the
nearest `float64`, a tie going to the even significand, and fails (the whole
`Unmarshal` then fails) when the rounded value exceeds the largest finite
`float64`. -/
def decodeInteger (neg : Bool) (n : Nat) : Option Float64 :=
  match findShift 973 0 n with
  | none => none
  | some shift =>
    let q := n / 2 ^ shift
    let r := n % 2 ^ shift
    let m :=
      if 2 * r < 2 ^ shift then q
      else if 2 * r > 2 ^ shift then q + 1
      else if q % 2 = 0 then q else q + 1
    if m = 2 ^ 53 then Float64.ofParts neg (2 ^ 52) ((shift : Int) + 1)
    else Float64.ofParts neg m (shift : Int)

/-- The integer with the given sign and magnitude. -/
def signedInt (neg : Bool) (n : Nat) : Int :=
  if neg then -(n : Int) else (n : Int)

/-- The state a poll reports, when it reports one. -/
def Poll.state? : Poll → Option String
  | Poll.observed _ state _ => some state
  | Poll.failed _ => none

/-- The hostname `credentialsAreReady` extracts from a response object. -/
def extractedHostname (data : List (String × JSON)) : String :=
  StrMap.get (mapDatabaseParams (JSON.index data "databaseParams")) "database_hostname"

/-- The service port `credentialsAreReady` extracts from a response object. -/
def extractedPort (data : List (String × JSON)) : String :=
  StrMap.get (mapDatabaseParams (JSON.index data "databaseParams")) "database_service_port"

/-- The username `credentialsAreReady` extracts from a response object. -/
def extractedUsername (data : List (String × JSON)) : String :=
  (selectDatabaseUser (JSON.index data "databaseUsers")).1

/-- The password `credentialsAreReady` extracts from a response object. -/
def extractedPassword (data : List (String × JSON)) : String :=
  (selectDatabaseUser (JSON.index data "databaseUsers")).2

/-- The backend's own status string of a response object (line 344). -/
def backendStatus (data : List (String × JSON)) : String :=
  (JSON.index data "status").asString

/-- What `c.Get` returns on a 2xx answer whose envelope carries `data`. -/
def gotObject (msg : String) (data : List (String × JSON)) (sent : List Request) : Run :=
  { resp := some { Msg := msg, Data := JSON.obj data }, err := none, sent := sent }

/-! ## Concrete collaborators for the examples -/

/-- A library whose `json.Marshal` yields the two bytes of `{}`, whose
`http.NewRequest` accepts every URL, and whose envelope parser keeps the body
as the message. -/
def demoLib : Lib where
  marshal := fun _ => Except.ok [123, 125]
  newRequestOk := fun _ _ => true
  errorField := fun _ => none
  unmarshalEnvelope := fun b => Except.ok { Msg := b, Data := JSON.null }

/-- A client with a non-empty token. -/
def demoClient : Client :=
  { BaseURL := "https://backend.filess.io", APIToken := "token" }

/-- A transport that answers attempt `i` with the `i`-th exchange of a script
(and refuses the connection once the script is over). -/
def scripted (script : List Exchange) : Transport :=
  fun attempt => script.getD attempt { consumed := 0, outcome := Outcome.doErr "refused" }

/-- An exchange that answers with a status and an empty body, after the
transport has read `n` bytes of the request body. -/
def answer (n : Nat) (status : Int) : Exchange :=
  { consumed := n, outcome := Outcome.response status "" }

/-- A stand-in for `fmt.Sprintf("%v", _)`. -/
def demoSprintV : JSON → String
  | JSON.null => "<nil>"
  | JSON.bool true => "true"
  | JSON.bool false => "false"
  | _ => "?"

/-- A `databaseUsers` record. -/
def userRecord (username password role : String) : JSON :=
  JSON.obj [("username", JSON.str username), ("password", JSON.str password),
    ("role", JSON.str role)]

/-- A `databaseParams` record. -/
def paramRecord (key value : String) : JSON :=
  JSON.obj [("key", JSON.str key), ("value", JSON.str value)]

end Filess


namespace Filess

/-! ## The retry loop -/

theorem attemptLoop_retry (lib : Lib) (net : Transport) (c : Client) (method path : String)
    (fuel attempt : Nat) (reqBody : Option (List Nat)) (req : Request) (lastErr : Option Error)
    (sent : List Request) (hurl : lib.newRequestOk method (c.BaseURL ++ path) = true)
    (hlast : attempt < maxRetries - 1) (hretry : (net attempt).outcome.retriable = true) :
    ∃ req1 e,
      attemptLoop lib net c method path (fuel + 1) attempt reqBody req lastErr sent =
        attemptLoop lib net c method path fuel (attempt + 1)
          (reqBody.map (fun b => b.drop (net attempt).consumed)) req1 (some e)
          (sent ++ [req1]) := by
  cases hout : (net attempt).outcome with
  | doErr cause =>
    by_cases h0 : attempt > 0 <;>
      simp only [attemptLoop, NewRequest, hurl, h0, hout, if_true, if_false, Option.map] <;>
      exact ⟨_, _, rfl⟩
  | readErr status cause =>
    by_cases h0 : attempt > 0 <;>
      simp only [attemptLoop, NewRequest, hurl, h0, hout, if_true, if_false, Option.map] <;>
      exact ⟨_, _, rfl⟩
  | response status respBody =>
    have h401 : status = 401 := by
      simpa [Outcome.retriable, Outcome.isNetworkFailure, Outcome.is401, hout] using hretry
    subst h401
    by_cases h0 : attempt > 0 <;>
      simp [attemptLoop, NewRequest, hurl, h0, hout, hlast] <;>
      exact ⟨_, _, rfl⟩

theorem attemptLoop_sent_le (lib : Lib) (net : Transport) (c : Client) (method path : String)
    (fuel : Nat) : ∀ (attempt : Nat) (reqBody : Option (List Nat)) (req : Request)
      (lastErr : Option Error) (sent : List Request),
      (attemptLoop lib net c method path fuel attempt reqBody req lastErr sent).sent.length
        ≤ sent.length + fuel := by
  induction fuel with
  | zero => intro attempt reqBody req lastErr sent; simp [attemptLoop]
  | succ fuel ih =>
    intro attempt reqBody req lastErr sent
    unfold attemptLoop
    simp only
    split
    · simp
    · split
      · refine le_trans (ih _ _ _ _ _) ?_
        simp; omega
      · refine le_trans (ih _ _ _ _ _) ?_
        simp; omega
      · split
        · split
          · refine le_trans (ih _ _ _ _ _) ?_
            simp; omega
          · simp
        · split <;> simp

theorem attemptLoop_sent_ge (lib : Lib) (net : Transport) (c : Client) (method path : String)
    (hurl : lib.newRequestOk method (c.BaseURL ++ path) = true)
    (fuel : Nat) : ∀ (attempt : Nat) (reqBody : Option (List Nat)) (req : Request)
      (lastErr : Option Error) (sent : List Request),
      sent.length + min fuel 1 ≤
        (attemptLoop lib net c method path fuel attempt reqBody req lastErr sent).sent.length := by
  induction fuel with
  | zero => intro attempt reqBody req lastErr sent; simp [attemptLoop]
  | succ fuel ih =>
    intro attempt reqBody req lastErr sent
    have hstep : ∀ (rb : Option (List Nat)) (r r1 : Request) (e : Option Error),
        sent.length + 1 ≤ (attemptLoop lib net c method path fuel (attempt + 1) rb r e
          (sent ++ [r1])).sent.length := by
      intro rb r r1 e
      refine le_trans ?_ (ih _ _ _ _ _)
      simp
    have hmin : min (fuel + 1) 1 = 1 := by omega
    rw [hmin]
    unfold attemptLoop
    by_cases h0 : attempt > 0 <;>
      simp only [NewRequest, hurl, h0, if_true, if_false, Option.map] <;>
      (split
       · exact hstep _ _ _ _
       · exact hstep _ _ _ _
       · split
         · split
           · exact hstep _ _ _ _
           · simp
         · split <;> simp)

theorem attemptLoop_stop (lib : Lib) (net : Transport) (c : Client) (method path : String)
    (fuel attempt : Nat) (reqBody : Option (List Nat)) (req : Request) (lastErr : Option Error)
    (sent : List Request) (hurl : lib.newRequestOk method (c.BaseURL ++ path) = true)
    (status : Int) (respBody : String)
    (hout : (net attempt).outcome = Outcome.response status respBody)
    (hs : status < 200 ∨ status ≥ 300) (hstop : ¬ (status = 401 ∧ attempt < maxRetries - 1)) :
    ∃ req1,
      attemptLoop lib net c method path (fuel + 1) attempt reqBody req lastErr sent =
        { resp := none, err := some (Error.api (mkAPIError lib status respBody)),
          sent := sent ++ [req1] } := by
  by_cases h0 : attempt > 0 <;>
    simp only [attemptLoop, NewRequest, hurl, h0, hout, hs, hstop, if_true, if_false,
      Option.map] <;>
    exact ⟨_, rfl⟩

theorem mkAPIError_status (lib : Lib) (status : Int) (respBody : String) :
    (mkAPIError lib status respBody).StatusCode = status := by
  unfold mkAPIError
  split
  · split <;> rfl
  · rfl

theorem attemptLoop_final_length (lib : Lib) (net : Transport) (c : Client)
    (method path : String) (fuel attempt : Nat) (reqBody : Option (List Nat)) (req : Request)
    (lastErr : Option Error) (sent : List Request)
    (hurl : lib.newRequestOk method (c.BaseURL ++ path) = true)
    (hfinal : (net attempt).outcome.retriable = false) :
    (attemptLoop lib net c method path (fuel + 1) attempt reqBody req lastErr sent).sent.length
      = sent.length + 1 := by
  cases hout : (net attempt).outcome with
  | doErr cause => simp [Outcome.retriable, Outcome.isNetworkFailure, hout] at hfinal
  | readErr status cause => simp [Outcome.retriable, Outcome.isNetworkFailure, hout] at hfinal
  | response status respBody =>
    have h401 : status ≠ 401 := by
      simpa [Outcome.retriable, Outcome.isNetworkFailure, Outcome.is401, hout] using hfinal
    by_cases hs : status < 200 ∨ status ≥ 300
    · obtain ⟨req1, h⟩ := attemptLoop_stop lib net c method path fuel attempt reqBody req
        lastErr sent hurl status respBody hout hs (fun h => h401 h.1)
      rw [h]; simp
    · by_cases h0 : attempt > 0 <;>
        cases hu : lib.unmarshalEnvelope respBody <;>
        simp [attemptLoop, NewRequest, hurl, h0, hout, hs, hu]

theorem doRequest_eq_loop (lib : Lib) (net : Transport) (c : Client) (method path : String)
    (body : Option JSON) (reqBody : Option (List Nat)) (htoken : c.APIToken ≠ "")
    (hbody : marshalBody lib body = Except.ok reqBody)
    (hurl : lib.newRequestOk method (c.BaseURL ++ path) = true) :
    ∃ req, doRequest lib net c method path body =
      attemptLoop lib net c method path maxRetries 0 reqBody req none [] := by
  simp only [doRequest, hbody, NewRequest, hurl, htoken, if_true, if_false]
  exact ⟨_, rfl⟩

theorem doRequest_sent_nil (lib : Lib) (net : Transport) (c : Client) (method path : String)
    (body : Option JSON)
    (h : c.APIToken = "" ∨ (∃ cause, marshalBody lib body = Except.error cause) ∨
      lib.newRequestOk method (c.BaseURL ++ path) = false) :
    (doRequest lib net c method path body).sent = [] := by
  rcases h with h | ⟨cause, h⟩ | h
  · unfold doRequest
    split
    · rfl
    · split
      · rfl
      · simp [h]
  · simp [doRequest, h]
  · unfold doRequest
    split
    · rfl
    · simp [NewRequest, h]

/-- C1: with a non-empty token and a request that can be built, when attempts
1 and 2 both answer 401 `doRequest` makes exactly 3 attempts; a 2xx third
answer with a parseable envelope makes the call succeed with that envelope, a
third 401 makes it fail with an `APIError` whose `StatusCode` is 401. -/
theorem doRequest_401_401_third (lib : Lib) (net : Transport) (c : Client)
    (method path : String) (body : Option JSON) (reqBody : Option (List Nat))
    (htoken : c.APIToken ≠ "")
    (hbody : marshalBody lib body = Except.ok reqBody)
    (hurl : lib.newRequestOk method (c.BaseURL ++ path) = true)
    (h0 : ∃ b, (net 0).outcome = Outcome.response 401 b)
    (h1 : ∃ b, (net 1).outcome = Outcome.response 401 b) :
    (doRequest lib net c method path body).sent.length = 3 ∧
    (∀ status b envelope, (net 2).outcome = Outcome.response status b →
        200 ≤ status → status < 300 → lib.unmarshalEnvelope b = Except.ok envelope →
        (doRequest lib net c method path body).resp = some envelope ∧
        (doRequest lib net c method path body).err = none) ∧
    (∀ b, (net 2).outcome = Outcome.response 401 b →
        (doRequest lib net c method path body).resp = none ∧
        ∃ e, (doRequest lib net c method path body).err = some (Error.api e) ∧
          e.StatusCode = 401) := by
  obtain ⟨b0, h0⟩ := h0
  obtain ⟨b1, h1⟩ := h1
  refine ⟨?_, ?_, ?_⟩
  · cases h2 : (net 2).outcome with
    | doErr cause =>
      simp [doRequest, hbody, NewRequest, hurl, htoken, attemptLoop, maxRetries, h0, h1, h2]
    | readErr status cause =>
      simp [doRequest, hbody, NewRequest, hurl, htoken, attemptLoop, maxRetries, h0, h1, h2]
    | response status respBody =>
      cases hu : lib.unmarshalEnvelope respBody <;>
      by_cases hs : status < 200 ∨ status ≥ 300 <;>
      simp [doRequest, hbody, NewRequest, hurl, htoken, attemptLoop, maxRetries, h0, h1, h2,
        hs, hu]
  · intro status b envelope h2 hlo hhi hu
    have hs : ¬ (status < 200 ∨ status ≥ 300) := by omega
    simp [doRequest, hbody, NewRequest, hurl, htoken, attemptLoop, maxRetries, h0, h1, h2,
      hs, hu]
  · intro b h2
    refine ⟨?_, mkAPIError lib 401 b, ?_, ?_⟩
    · simp [doRequest, hbody, NewRequest, hurl, htoken, attemptLoop, maxRetries, h0, h1, h2]
    · simp [doRequest, hbody, NewRequest, hurl, htoken, attemptLoop, maxRetries, h0, h1, h2]
    · unfold mkAPIError
      split
      · split <;> rfl
      · rfl

/-- C1 at the script `[401, 401, 200]`: three attempts, then success. -/
theorem doRequest_401_401_third_witness :
    (doRequest demoLib (scripted [answer 0 401, answer 0 401, answer 0 200]) demoClient
      "GET" "/api/v1/databases/7" none).sent.length = 3 ∧
    (doRequest demoLib (scripted [answer 0 401, answer 0 401, answer 0 200]) demoClient
      "GET" "/api/v1/databases/7" none).err = none :=
  have h := doRequest_401_401_third demoLib
    (scripted [answer 0 401, answer 0 401, answer 0 200]) demoClient
    "GET" "/api/v1/databases/7" none none (by decide) rfl rfl ⟨"", rfl⟩ ⟨"", rfl⟩
  ⟨h.1, (h.2.1 200 "" { Msg := "", Data := JSON.null } rfl (by decide) (by decide) rfl).2⟩

theorem attemptLoop_sent_prefix (lib : Lib) (net : Transport) (c : Client)
    (method path : String) (fuel : Nat) :
    ∀ (attempt : Nat) (reqBody : Option (List Nat)) (req : Request)
      (lastErr : Option Error) (sent : List Request),
      ∃ t, (attemptLoop lib net c method path fuel attempt reqBody req lastErr sent).sent
        = sent ++ t := by
  induction fuel with
  | zero => intro attempt reqBody req lastErr sent; exact ⟨[], by simp [attemptLoop]⟩
  | succ fuel ih =>
    intro attempt reqBody req lastErr sent
    have hstep : ∀ (rb : Option (List Nat)) (r r1 : Request) (e : Option Error),
        ∃ t, (attemptLoop lib net c method path fuel (attempt + 1) rb r e
          (sent ++ [r1])).sent = sent ++ t := by
      intro rb r r1 e
      obtain ⟨t, ht⟩ := ih (attempt + 1) rb r e (sent ++ [r1])
      exact ⟨r1 :: t, by rw [ht]; simp⟩
    unfold attemptLoop
    simp only
    split
    · exact ⟨[], by simp⟩
    · split
      · exact hstep _ _ _ _
      · exact hstep _ _ _ _
      · split
        · split
          · exact hstep _ _ _ _
          · exact ⟨_, rfl⟩
        · split <;> exact ⟨_, rfl⟩

theorem attemptLoop_retry_first (lib : Lib) (net : Transport) (c : Client)
    (method path : String) (fuel : Nat) (reqBody : Option (List Nat)) (req : Request)
    (lastErr : Option Error) (sent : List Request)
    (hretry : (net 0).outcome.retriable = true) :
    ∃ e, attemptLoop lib net c method path (fuel + 1) 0 reqBody req lastErr sent =
      attemptLoop lib net c method path fuel 1
        (reqBody.map (fun b => b.drop (net 0).consumed)) req (some e) (sent ++ [req]) := by
  cases hout : (net 0).outcome with
  | doErr cause =>
    refine ⟨Error.makingRequest cause, ?_⟩
    rw [attemptLoop.eq_2]
    simp [hout]
  | readErr status cause =>
    refine ⟨Error.readingBody cause, ?_⟩
    rw [attemptLoop.eq_2]
    simp [hout]
  | response status respBody =>
    have hst : status = 401 := by
      simpa [Outcome.retriable, Outcome.isNetworkFailure, Outcome.is401, hout] using hretry
    subst hst
    refine ⟨Error.api (mkAPIError lib 401 respBody), ?_⟩
    rw [attemptLoop.eq_2]
    simp [hout, maxRetries]

theorem attemptLoop_sent_head (lib : Lib) (net : Transport) (c : Client)
    (method path : String) (fuel attempt : Nat) (reqBody : Option (List Nat)) (req : Request)
    (lastErr : Option Error) (sent : List Request)
    (hurl : lib.newRequestOk method (c.BaseURL ++ path) = true) (hpos : attempt > 0) :
    ∃ r t, (attemptLoop lib net c method path (fuel + 1) attempt reqBody req lastErr sent).sent
        = sent ++ r :: t ∧ r.body = reqBody.getD [] := by
  have hstep : ∀ (rb : Option (List Nat)) (r r1 : Request) (e : Option Error),
      ∃ t, (attemptLoop lib net c method path fuel (attempt + 1) rb r e
        (sent ++ [r1])).sent = sent ++ r1 :: t := by
    intro rb r r1 e
    obtain ⟨t, ht⟩ := attemptLoop_sent_prefix lib net c method path fuel (attempt + 1) rb r e
      (sent ++ [r1])
    exact ⟨t, by rw [ht]; simp⟩
  rw [attemptLoop.eq_2]
  simp only [NewRequest, hurl, hpos, if_true, Option.map]
  split
  · obtain ⟨t, ht⟩ := hstep _ _ _ _
    exact ⟨_, t, ht, rfl⟩
  · obtain ⟨t, ht⟩ := hstep _ _ _ _
    exact ⟨_, t, ht, rfl⟩
  · split
    · split
      · obtain ⟨t, ht⟩ := hstep _ _ _ _
        exact ⟨_, t, ht, rfl⟩
      · exact ⟨_, [], rfl, rfl⟩
    · split <;> exact ⟨_, [], rfl, rfl⟩

/-- The bodies of the first two requests of a retried call: the first carries
the whole serialized payload, the second what the first exchange left unread
in the shared buffer. -/
theorem doRequest_retry_body (lib : Lib) (net : Transport) (c : Client)
    (method path : String) (payload : JSON) (jsonBody : List Nat)
    (htoken : c.APIToken ≠ "")
    (hbody : lib.marshal payload = Except.ok jsonBody)
    (hurl : lib.newRequestOk method (c.BaseURL ++ path) = true)
    (hretry : (net 0).outcome.retriable = true) :
    ∃ r0 r1 t, (doRequest lib net c method path (some payload)).sent = r0 :: r1 :: t ∧
      r0.body = jsonBody ∧ r1.body = jsonBody.drop (net 0).consumed := by
  have hmb : marshalBody lib (some payload) = Except.ok (some jsonBody) := by
    simp [marshalBody, hbody]
  simp only [doRequest, hmb, NewRequest, hurl, htoken, if_true, if_false, maxRetries]
  obtain ⟨e, he⟩ := attemptLoop_retry_first lib net c method path 2 (some jsonBody)
    (setHeaders c ⟨method, c.BaseURL ++ path, [], ((some jsonBody).getD []).length,
      (some jsonBody).getD []⟩)
    none [] hretry
  rw [he]
  obtain ⟨r1, t, h1, hb1⟩ := attemptLoop_sent_head lib net c method path 1 1
    ((some jsonBody).map (fun b => b.drop (net 0).consumed))
    (setHeaders c ⟨method, c.BaseURL ++ path, [], ((some jsonBody).getD []).length,
      (some jsonBody).getD []⟩)
    (some e)
    ([] ++ [setHeaders c ⟨method, c.BaseURL ++ path, [], ((some jsonBody).getD []).length,
      (some jsonBody).getD []⟩])
    hurl (by decide)
  exact ⟨_, r1, t, h1, rfl, hb1⟩

/-- C3, at the failing input: a `Post` whose payload serializes to the two
bytes `{}` and whose first attempt is answered 401 after the transport has
sent the whole body.  The first request carries the serialized payload; the
request rebuilt for the retry carries an empty body with `Content-Length` 0,
because it is built from the same, already drained buffer. -/
theorem post_retry_sends_drained_body :
    demoLib.marshal (JSON.obj []) = Except.ok [123, 125] ∧
    (Client.Post demoLib (scripted [answer 2 401, answer 0 200]) demoClient
      "/api/v1/databases" (JSON.obj [])).sent.map Request.body = [[123, 125], []] ∧
    (Client.Post demoLib (scripted [answer 2 401, answer 0 200]) demoClient
      "/api/v1/databases" (JSON.obj [])).sent.map Request.contentLength = [2, 0] := by
  refine ⟨rfl, ?_, ?_⟩ <;> decide

/-- C2: on any attempt that is reached, a non-2xx status other than 401 makes
`doRequest` return an `APIError` with that status at once, with no further
attempt; reached at attempt index `k`, exactly `k + 1` attempts were made. -/
theorem doRequest_other_status_immediate (lib : Lib) (net : Transport) (c : Client)
    (method path : String) (body : Option JSON) (reqBody : Option (List Nat))
    (htoken : c.APIToken ≠ "")
    (hbody : marshalBody lib body = Except.ok reqBody)
    (hurl : lib.newRequestOk method (c.BaseURL ++ path) = true)
    (k : Nat) (hk : k < maxRetries)
    (hprev : ∀ i, i < k → (net i).outcome.retriable = true)
    (status : Int) (b : String)
    (hout : (net k).outcome = Outcome.response status b)
    (hs : status < 200 ∨ status ≥ 300) (h401 : status ≠ 401) :
    (doRequest lib net c method path body).resp = none ∧
    (doRequest lib net c method path body).err
      = some (Error.api (mkAPIError lib status b)) ∧
    (mkAPIError lib status b).StatusCode = status ∧
    (doRequest lib net c method path body).sent.length = k + 1 := by
  obtain ⟨req, hrun⟩ := doRequest_eq_loop lib net c method path body reqBody htoken hbody hurl
  have hstop : ¬ (status = 401 ∧ k < maxRetries - 1) := fun h => h401 h.1
  have key : ∃ sent : List Request, sent.length = k + 1 ∧
      attemptLoop lib net c method path maxRetries 0 reqBody req none [] =
        { resp := none, err := some (Error.api (mkAPIError lib status b)), sent := sent } := by
    unfold maxRetries at hk
    rcases k with _ | _ | _ | k
    · obtain ⟨r, h⟩ := attemptLoop_stop lib net c method path 2 0 reqBody req none [] hurl
        status b hout hs hstop
      exact ⟨_, by simp, h⟩
    · obtain ⟨r0, e0, h0⟩ := attemptLoop_retry lib net c method path 2 0 reqBody req none []
        hurl (by decide) (hprev 0 (by omega))
      obtain ⟨r, h⟩ := attemptLoop_stop lib net c method path 1 1
        (reqBody.map (fun b => b.drop (net 0).consumed)) r0 (some e0) ([] ++ [r0])
        hurl status b hout hs hstop
      exact ⟨_, by simp, h0.trans h⟩
    · obtain ⟨r0, e0, h0⟩ := attemptLoop_retry lib net c method path 2 0 reqBody req none []
        hurl (by decide) (hprev 0 (by omega))
      obtain ⟨r1, e1, h1⟩ := attemptLoop_retry lib net c method path 1 1
        (reqBody.map (fun b => b.drop (net 0).consumed)) r0 (some e0) ([] ++ [r0])
        hurl (by decide) (hprev 1 (by omega))
      obtain ⟨r, h⟩ := attemptLoop_stop lib net c method path 0 2 _ r1 (some e1)
        ([] ++ [r0] ++ [r1]) hurl status b hout hs hstop
      exact ⟨_, by simp, h0.trans (h1.trans h)⟩
    · omega
  obtain ⟨sent, hlen, hfin⟩ := key
  rw [hrun, hfin]
  exact ⟨rfl, rfl, mkAPIError_status lib status b, hlen⟩

/-- C2 at a 500 on the first attempt: exactly 1 attempt, an `APIError` with
status 500. -/
theorem doRequest_other_status_immediate_witness :
    (doRequest demoLib (scripted [answer 0 500]) demoClient
      "GET" "/api/v1/databases/7" none).resp = none ∧
    (doRequest demoLib (scripted [answer 0 500]) demoClient
      "GET" "/api/v1/databases/7" none).err
      = some (Error.api (mkAPIError demoLib 500 "")) ∧
    (mkAPIError demoLib 500 "").StatusCode = 500 ∧
    (doRequest demoLib (scripted [answer 0 500]) demoClient
      "GET" "/api/v1/databases/7" none).sent.length = 0 + 1 :=
  doRequest_other_status_immediate demoLib (scripted [answer 0 500]) demoClient
    "GET" "/api/v1/databases/7" none none (by decide) rfl rfl 0 (by decide)
    (fun i hi => absurd hi (Nat.not_lt_zero i)) 500 "" rfl (by decide) (by decide)

/-- C4: `doRequest` never makes more than 3 attempts; a network-level failure
on an attempt that was made is followed by another attempt whenever one
remains; and when all 3 attempts end in a retriable outcome the error returned
is the one of the 3rd attempt: the network error if it failed at the network
level, the `APIError` with status 401 if it answered 401. -/
theorem doRequest_retry_budget (lib : Lib) (net : Transport) (c : Client)
    (method path : String) (body : Option JSON) :
    (doRequest lib net c method path body).sent.length ≤ 3 ∧
    (∀ k, k + 1 < maxRetries → k < (doRequest lib net c method path body).sent.length →
        (net k).outcome.isNetworkFailure = true →
        k + 1 < (doRequest lib net c method path body).sent.length) ∧
    (∀ reqBody, c.APIToken ≠ "" → marshalBody lib body = Except.ok reqBody →
        lib.newRequestOk method (c.BaseURL ++ path) = true →
        (∀ i, i < maxRetries → (net i).outcome.retriable = true) →
        (doRequest lib net c method path body).sent.length = 3 ∧
        (doRequest lib net c method path body).resp = none ∧
        (∀ cause, (net 2).outcome = Outcome.doErr cause →
          (doRequest lib net c method path body).err = some (Error.makingRequest cause)) ∧
        (∀ status cause, (net 2).outcome = Outcome.readErr status cause →
          (doRequest lib net c method path body).err = some (Error.readingBody cause)) ∧
        (∀ b, (net 2).outcome = Outcome.response 401 b →
          (doRequest lib net c method path body).err
            = some (Error.api (mkAPIError lib 401 b)) ∧
          (mkAPIError lib 401 b).StatusCode = 401)) := by
  by_cases hpre : c.APIToken = "" ∨ (∃ cause, marshalBody lib body = Except.error cause) ∨
      lib.newRequestOk method (c.BaseURL ++ path) = false
  · have hnil := doRequest_sent_nil lib net c method path body hpre
    refine ⟨by simp [hnil], ?_, ?_⟩
    · intro k _ hlt; simp [hnil] at hlt
    · intro reqBody htoken hbody hurl
      rcases hpre with h | ⟨cause, h⟩ | h
      · exact absurd h htoken
      · rw [h] at hbody; cases hbody
      · rw [h] at hurl; cases hurl
  · have htoken : c.APIToken ≠ "" := fun h => hpre (Or.inl h)
    have hurl : lib.newRequestOk method (c.BaseURL ++ path) = true := by
      cases h : lib.newRequestOk method (c.BaseURL ++ path)
      · exact absurd (Or.inr (Or.inr h)) hpre
      · rfl
    obtain ⟨rb, hbody⟩ : ∃ rb, marshalBody lib body = Except.ok rb := by
      cases h : marshalBody lib body with
      | error cause => exact absurd (Or.inr (Or.inl ⟨cause, h⟩)) hpre
      | ok rb => exact ⟨rb, rfl⟩
    obtain ⟨req, hrun⟩ := doRequest_eq_loop lib net c method path body rb htoken hbody hurl
    rw [hrun]
    refine ⟨?_, ?_, ?_⟩
    · have := attemptLoop_sent_le lib net c method path maxRetries 0 rb req none []
      simpa [maxRetries] using this
    · intro k hk hlt hnet
      have hretk : (net k).outcome.retriable = true := by simp [Outcome.retriable, hnet]
      unfold maxRetries at hk hlt ⊢
      rcases k with _ | _ | k
      · obtain ⟨r0, e0, h0⟩ := attemptLoop_retry lib net c method path 2 0 rb req none []
          hurl (by decide) hretk
        rw [h0]
        have := attemptLoop_sent_ge lib net c method path hurl 2 1
          (rb.map (fun b => b.drop (net 0).consumed)) r0 (some e0) ([] ++ [r0])
        simpa using this
      · by_cases hret0 : (net 0).outcome.retriable = true
        · obtain ⟨r0, e0, h0⟩ := attemptLoop_retry lib net c method path 2 0 rb req none []
            hurl (by decide) hret0
          rw [h0]
          obtain ⟨r1, e1, h1⟩ := attemptLoop_retry lib net c method path 1 1
            (rb.map (fun b => b.drop (net 0).consumed)) r0 (some e0)
            ([] ++ [r0]) hurl (by decide) hretk
          rw [h1]
          have := attemptLoop_sent_ge lib net c method path hurl 1 2
            ((rb.map (fun b => b.drop (net 0).consumed)).map
              (fun b => b.drop (net 1).consumed)) r1 (some e1) ([] ++ [r0] ++ [r1])
          simpa using this
        · have hlen := attemptLoop_final_length lib net c method path 2 0 rb req none [] hurl
            (by simpa using hret0)
          rw [hlen] at hlt
          simp at hlt
      · omega
    · intro reqBody _ hbody2 _ hall
      have hrb : reqBody = rb := by rw [hbody] at hbody2; cases hbody2; rfl
      subst hrb
      unfold maxRetries at hall ⊢
      obtain ⟨r0, e0, h0⟩ := attemptLoop_retry lib net c method path 2 0 reqBody req none []
        hurl (by decide) (hall 0 (by omega))
      rw [h0]
      obtain ⟨r1, e1, h1⟩ := attemptLoop_retry lib net c method path 1 1
        (reqBody.map (fun b => b.drop (net 0).consumed)) r0 (some e0)
        ([] ++ [r0]) hurl (by decide) (hall 1 (by omega))
      rw [h1]
      have h2 := hall 2 (by omega)
      cases hout : (net 2).outcome with
      | doErr cause =>
        simp [attemptLoop, NewRequest, hurl, hout]
      | readErr status cause =>
        simp [attemptLoop, NewRequest, hurl, hout]
      | response status respBody =>
        have hst : status = 401 := by
          simpa [Outcome.retriable, Outcome.isNetworkFailure, Outcome.is401, hout] using h2
        subst hst
        simp [attemptLoop, NewRequest, hurl, hout, maxRetries, mkAPIError_status]

/-- C4 at the script `[401, network failure, network failure]`: three
attempts, and the error returned is the network error of the third. -/
theorem doRequest_retry_budget_witness :
    (doRequest demoLib
      (scripted [answer 0 401, { consumed := 0, outcome := Outcome.doErr "reset" },
        { consumed := 0, outcome := Outcome.doErr "timeout" }])
      demoClient "GET" "/api/v1/databases/7" none).sent.length = 3 ∧
    (doRequest demoLib
      (scripted [answer 0 401, { consumed := 0, outcome := Outcome.doErr "reset" },
        { consumed := 0, outcome := Outcome.doErr "timeout" }])
      demoClient "GET" "/api/v1/databases/7" none).err
      = some (Error.makingRequest "timeout") :=
  have h := (doRequest_retry_budget demoLib
    (scripted [answer 0 401, { consumed := 0, outcome := Outcome.doErr "reset" },
      { consumed := 0, outcome := Outcome.doErr "timeout" }])
    demoClient "GET" "/api/v1/databases/7" none).2.2 none (by decide) rfl rfl
    (by
      intro i hi
      unfold maxRetries at hi
      rcases i with _ | _ | _ | i
      · rfl
      · rfl
      · rfl
      · omega)
  ⟨h.1, h.2.2.1 "timeout" rfl⟩

/-! ## Credential selection -/

theorem selectLoop_cons (u : JSON) (rest : List JSON) (fu fp : String) :
    selectLoop (u :: rest) fu fp =
      if isPopulated u = false then selectLoop rest fu fp
      else if isRootEntry u = true then (entryUsername u, entryPassword u)
      else if fu = "" then selectLoop rest (entryUsername u) (entryPassword u)
      else selectLoop rest fu fp := by
  cases u with
  | obj userMap =>
    simp only [selectLoop, isPopulated, isRootEntry, entryUsername, entryPassword, entryRole]
    by_cases h1 : (JSON.index userMap "username").asString = "" ∨
        (JSON.index userMap "password").asString = ""
    · have h1' : ¬ ((JSON.index userMap "username").asString ≠ "" ∧
          (JSON.index userMap "password").asString ≠ "") := by
        rcases h1 with h | h <;> simp [h]
      simp [h1, h1']
    · have h1' : (JSON.index userMap "username").asString ≠ "" ∧
          (JSON.index userMap "password").asString ≠ "" := by
        constructor <;> intro h <;> simp [h] at h1
      by_cases h2 : (JSON.index userMap "role").asString = "root" ∨
          (JSON.index userMap "username").asString = "root"
      · simp [h1, h1', h2]
      · simp [h1, h1', h2]
  | null => simp [selectLoop, isPopulated, entryUsername]
  | bool b => simp [selectLoop, isPopulated, entryUsername]
  | num f => simp [selectLoop, isPopulated, entryUsername]
  | str v => simp [selectLoop, isPopulated, entryUsername]
  | arr l => simp [selectLoop, isPopulated, entryUsername]

theorem isRootEntry_isPopulated (u : JSON) (h : isRootEntry u = true) :
    isPopulated u = true := by
  simp only [isRootEntry, Bool.and_eq_true] at h
  exact h.1

theorem selectLoop_root (users : List JSON) :
    ∀ (fu fp : String) (u : JSON), users.find? isRootEntry = some u →
      selectLoop users fu fp = (entryUsername u, entryPassword u) := by
  induction users with
  | nil => intro fu fp u h; simp at h
  | cons v rest ih =>
    intro fu fp u h
    rw [selectLoop_cons]
    by_cases hr : isRootEntry v = true
    · have hp := isRootEntry_isPopulated v hr
      simp only [List.find?_cons, hr] at h
      cases h
      simp [hp, hr]
    · have hfind : rest.find? isRootEntry = some u := by
        simpa [List.find?_cons, hr] using h
      by_cases hp : isPopulated v = false
      · simp [hp, ih fu fp u hfind]
      · by_cases hf : fu = ""
        · simp [hp, hr, hf, ih _ _ u hfind]
        · simp [hp, hr, hf, ih _ _ u hfind]

theorem selectLoop_keep (users : List JSON) (hroot : ∀ u ∈ users, isRootEntry u = false) :
    ∀ (fu fp : String), fu ≠ "" → selectLoop users fu fp = (fu, fp) := by
  induction users with
  | nil => intro fu fp _; rfl
  | cons v rest ih =>
    intro fu fp hf
    have hr : isRootEntry v = false := hroot v (List.mem_cons_self v rest)
    have ih' := ih (fun u hu => hroot u (List.mem_cons_of_mem v hu)) fu fp hf
    rw [selectLoop_cons]
    by_cases hp : isPopulated v = false
    · simp [hp, ih']
    · simp [hp, hr, hf, ih']

theorem selectLoop_first (users : List JSON) (hroot : ∀ u ∈ users, isRootEntry u = false) :
    selectLoop users "" "" =
      match users.find? isPopulated with
      | some u => (entryUsername u, entryPassword u)
      | none => ("", "") := by
  induction users with
  | nil => rfl
  | cons v rest ih =>
    have hr : isRootEntry v = false := hroot v (List.mem_cons_self v rest)
    have hrest : ∀ u ∈ rest, isRootEntry u = false :=
      fun u hu => hroot u (List.mem_cons_of_mem v hu)
    rw [selectLoop_cons]
    by_cases hp : isPopulated v = false
    · simp [hp, List.find?_cons, ih hrest]
    · have hp' : isPopulated v = true := by simpa using hp
      have hne : entryUsername v ≠ "" := by
        have := hp'
        simp only [isPopulated, decide_eq_true_eq] at this
        exact this.1
      simp [hp', hr, List.find?_cons, selectLoop_keep rest hrest _ _ hne]

/-- C5: when some entry is populated and has role or username `"root"`,
`selectDatabaseUser` returns the username and password of the first such
entry, whatever precedes or follows it; for the users `{a,p1,member}` and
`{root,p2,root}` it returns `("root","p2")` in either order. -/
theorem selectDatabaseUser_root_first (users : List JSON)
    (h : ∃ u ∈ users, isRootEntry u = true) :
    (∃ u, users.find? isRootEntry = some u ∧
      selectDatabaseUser (JSON.arr users) = (entryUsername u, entryPassword u)) ∧
    selectDatabaseUser (JSON.arr [userRecord "a" "p1" "member", userRecord "root" "p2" "root"])
      = ("root", "p2") ∧
    selectDatabaseUser (JSON.arr [userRecord "root" "p2" "root", userRecord "a" "p1" "member"])
      = ("root", "p2") := by
  refine ⟨?_, by decide, by decide⟩
  obtain ⟨v, hv, hroot⟩ := h
  have hsome : (users.find? isRootEntry).isSome = true := by
    rw [List.find?_isSome]
    exact ⟨v, hv, hroot⟩
  obtain ⟨u, hu⟩ := Option.isSome_iff_exists.mp hsome
  refine ⟨u, hu, ?_⟩
  have hlen : users.length ≠ 0 := by
    intro h0
    have : users = [] := List.length_eq_zero.mp h0
    subst this
    simp at hv
  simp only [selectDatabaseUser, hlen, if_false]
  exact selectLoop_root users "" "" u hu

/-- C5 on a list where a member precedes and follows the root entries. -/
theorem selectDatabaseUser_root_first_witness :
    ∃ u, [userRecord "a" "p1" "member", userRecord "admin" "p2" "root",
        userRecord "root" "p3" "member", userRecord "b" "p4" "member"].find? isRootEntry
        = some u ∧
      selectDatabaseUser (JSON.arr [userRecord "a" "p1" "member", userRecord "admin" "p2" "root",
        userRecord "root" "p3" "member", userRecord "b" "p4" "member"])
        = (entryUsername u, entryPassword u) :=
  (selectDatabaseUser_root_first
    [userRecord "a" "p1" "member", userRecord "admin" "p2" "root",
      userRecord "root" "p3" "member", userRecord "b" "p4" "member"]
    ⟨userRecord "admin" "p2" "root", by simp, by decide⟩).1

/-- C6: on a list with no populated root entry, `selectDatabaseUser` returns the
username and password of the first entry with both non-empty, and `("","")`
when no entry has both non-empty; it also returns `("","")` on an input that
is not a list and on the empty list. -/
theorem selectDatabaseUser_fallback :
    (∀ users : List JSON, (∀ u ∈ users, isRootEntry u = false) →
      selectDatabaseUser (JSON.arr users) =
        match users.find? isPopulated with
        | some u => (entryUsername u, entryPassword u)
        | none => ("", "")) ∧
    (∀ raw : JSON, (∀ users, raw ≠ JSON.arr users) → selectDatabaseUser raw = ("", "")) ∧
    selectDatabaseUser (JSON.arr []) = ("", "") ∧
    selectDatabaseUser (JSON.arr [userRecord "a" "p1" "member"]) = ("a", "p1") := by
  refine ⟨?_, ?_, by decide, by decide⟩
  · intro users hroot
    by_cases hlen : users.length = 0
    · have : users = [] := List.length_eq_zero.mp hlen
      subst this
      rfl
    · simp only [selectDatabaseUser, hlen, if_false]
      exact selectLoop_first users hroot
  · intro raw hraw
    cases raw with
    | arr users => exact absurd rfl (hraw users)
    | null => rfl
    | bool b => rfl
    | num f => rfl
    | str v => rfl
    | obj m => rfl

/-- C6 on a list whose first entry has an empty password and whose next two
are populated members. -/
theorem selectDatabaseUser_fallback_witness :
    selectDatabaseUser (JSON.arr [userRecord "x" "" "member", userRecord "a" "p1" "member",
      userRecord "b" "p2" "member"]) =
      (entryUsername (userRecord "a" "p1" "member"),
        entryPassword (userRecord "a" "p1" "member")) ∧
    selectDatabaseUser (JSON.num { neg := false, mant := 1, exp := 0 }) = ("", "") :=
  ⟨selectDatabaseUser_fallback.1
      [userRecord "x" "" "member", userRecord "a" "p1" "member", userRecord "b" "p2" "member"]
      (by decide),
    selectDatabaseUser_fallback.2.1 (JSON.num { neg := false, mant := 1, exp := 0 })
      (fun users h => by cases h)⟩

/-! ## Connection parameters -/

theorem paramStep_eq (result : StrMap) (p : JSON) :
    paramStep result p =
      if entryKey p = "" then result else StrMap.set result (entryKey p) (entryValue p) := by
  cases p <;> simp [paramStep, entryKey, entryValue]

theorem StrMap.get?_set (m : StrMap) (key value k : String) :
    StrMap.get? (StrMap.set m key value) k =
      if key = k then some value else StrMap.get? m k := by
  induction m with
  | nil =>
    by_cases h : key = k
    · simp [StrMap.set, StrMap.get?, List.lookup, h]
    · have h' : (k == key) = false := by simpa using fun e => h e.symm
      simp [StrMap.set, StrMap.get?, List.lookup, h, h']
  | cons kv rest ih =>
    obtain ⟨k0, v0⟩ := kv
    simp only [StrMap.get?] at ih ⊢
    by_cases h0 : k0 = key
    · subst h0
      by_cases h : k0 = k
      · subst h
        simp [StrMap.set, List.lookup]
      · have h' : (k == k0) = false := by simpa using fun e => h e.symm
        simp [StrMap.set, List.lookup, h, h']
    · by_cases h : k = k0
      · subst h
        have h1 : ¬ key = k := fun e => h0 e.symm
        simp [StrMap.set, List.lookup, h0, h1]
      · have h' : (k == k0) = false := by simpa using h
        simp [StrMap.set, List.lookup, h0, h', ih]

theorem foldl_paramStep_get? (params : List JSON) (k : String) (hk : k ≠ "") :
    ∀ m : StrMap, StrMap.get? (params.foldl paramStep m) k =
      match params.reverse.find? (fun p => entryKey p == k) with
      | some p => some (entryValue p)
      | none => StrMap.get? m k := by
  induction params with
  | nil => intro m; rfl
  | cons p rest ih =>
    intro m
    rw [List.foldl_cons, ih, List.reverse_cons, List.find?_append]
    cases hfind : rest.reverse.find? (fun p => entryKey p == k) with
    | some q => simp
    | none =>
      rw [paramStep_eq]
      by_cases hp : entryKey p = k
      · have hne : entryKey p ≠ "" := by rw [hp]; exact hk
        simp [hp, hk, StrMap.get?_set]
      · by_cases he : entryKey p = ""
        · have hk' : ¬ "" = k := fun e => hk e.symm
          simp [he, hk']
        · simp [hp, he, StrMap.get?_set]

theorem foldl_paramStep_skip (pre post : List JSON) (p : JSON) (hp : entryKey p = "")
    (m : StrMap) :
    (pre ++ p :: post).foldl paramStep m = (pre ++ post).foldl paramStep m := by
  simp [List.foldl_append, paramStep_eq, hp]

theorem mapDatabaseParams_get?_arr (params : List JSON) (k : String) (hk : k ≠ "") :
    StrMap.get? (mapDatabaseParams (JSON.arr params)) k =
      match params.reverse.find? (fun p => entryKey p == k) with
      | some p => some (entryValue p)
      | none => StrMap.get? defaultParams k :=
  foldl_paramStep_get? params k hk defaultParams

/-- C7, as the code has it: for every input list and every non-empty key, the
value returned under that key is the value of the last entry that is an
object with that key (the empty string when that entry's value is missing or
not a string), and the default when there is no such entry, so only entries
keyed `database_hostname` or `database_service_port` decide those two values
while an entry with another key is stored under its own key; an entry that
is not an object, or whose key is missing, not a string or empty, leaves
the output unchanged. -/
theorem mapDatabaseParams_last_entry_wins (params : List JSON) :
    (∀ k : String, k ≠ "" →
      StrMap.get? (mapDatabaseParams (JSON.arr params)) k =
        match params.reverse.find? (fun p => entryKey p == k) with
        | some p => some (entryValue p)
        | none => StrMap.get? defaultParams k) ∧
    (∀ (pre post : List JSON) (p : JSON), params = pre ++ p :: post → entryKey p = "" →
      mapDatabaseParams (JSON.arr params) = mapDatabaseParams (JSON.arr (pre ++ post))) := by
  constructor
  · intro k hk
    exact foldl_paramStep_get? params k hk defaultParams
  · intro pre post p hparams hp
    subst hparams
    exact foldl_paramStep_skip pre post p hp defaultParams

/-- C7 on a list with a recognised entry, an entry with another key and an
entry that is not an object. -/
theorem mapDatabaseParams_last_entry_wins_witness :
    StrMap.get? (mapDatabaseParams (JSON.arr [paramRecord "database_hostname" "h1",
      paramRecord "region" "eu", JSON.str "junk"])) "region" = some "eu" ∧
    mapDatabaseParams (JSON.arr [paramRecord "database_hostname" "h1",
      paramRecord "region" "eu", JSON.str "junk"]) =
      mapDatabaseParams (JSON.arr ([paramRecord "database_hostname" "h1",
        paramRecord "region" "eu"] ++ [])) :=
  have h := mapDatabaseParams_last_entry_wins [paramRecord "database_hostname" "h1",
    paramRecord "region" "eu", JSON.str "junk"]
  ⟨h.1 "region" (by decide),
    h.2 [paramRecord "database_hostname" "h1", paramRecord "region" "eu"] []
      (JSON.str "junk") rfl rfl⟩

/-- C7 as stated fails: an entry keyed `region` adds the key `region` to the
output, which then has three keys; and an entry keyed `database_hostname`
whose value is a number, not a string, resets the hostname to `""`. -/
theorem mapDatabaseParams_other_key_stored :
    StrMap.keys (mapDatabaseParams (JSON.arr [paramRecord "region" "eu"])) =
      ["database_hostname", "database_service_port", "region"] ∧
    StrMap.get (mapDatabaseParams (JSON.arr [paramRecord "database_hostname" "h1"]))
      "database_hostname" = "h1" ∧
    StrMap.get (mapDatabaseParams (JSON.arr [paramRecord "database_hostname" "h1",
      JSON.obj [("key", JSON.str "database_hostname"),
        ("value", JSON.num { neg := false, mant := 5, exp := 0 })]]))
      "database_hostname" = "" := by
  decide

/-- C8: for every input, list or not, the mapping returned by
`mapDatabaseParams` contains both `database_hostname` and
`database_service_port`; one of them for which the input has no entry maps to
the empty string; `[{key:"database_hostname",value:"h1"}]` gives hostname
`"h1"` and service port `""`. -/
theorem mapDatabaseParams_both_keys (raw : JSON) :
    (StrMap.get? (mapDatabaseParams raw) "database_hostname").isSome = true ∧
    (StrMap.get? (mapDatabaseParams raw) "database_service_port").isSome = true ∧
    (∀ k : String, k = "database_hostname" ∨ k = "database_service_port" →
      (∀ params, raw = JSON.arr params → ∀ p ∈ params, entryKey p ≠ k) →
      StrMap.get? (mapDatabaseParams raw) k = some "") ∧
    StrMap.get? (mapDatabaseParams (JSON.arr [paramRecord "database_hostname" "h1"]))
      "database_hostname" = some "h1" ∧
    StrMap.get? (mapDatabaseParams (JSON.arr [paramRecord "database_hostname" "h1"]))
      "database_service_port" = some "" := by
  have hdef : ∀ k : String, k = "database_hostname" ∨ k = "database_service_port" →
      StrMap.get? defaultParams k = some "" := by
    intro k hk
    rcases hk with h | h <;> subst h <;> decide
  have hne : ∀ k : String, k = "database_hostname" ∨ k = "database_service_port" →
      k ≠ "" := by
    intro k hk
    rcases hk with h | h <;> subst h <;> decide
  have hsome : ∀ k : String, k = "database_hostname" ∨ k = "database_service_port" →
      (StrMap.get? (mapDatabaseParams raw) k).isSome = true := by
    intro k hk
    cases raw with
    | arr params =>
      rw [(mapDatabaseParams_get?_arr params k (hne k hk))]
      cases params.reverse.find? (fun p => entryKey p == k) with
      | some q => rfl
      | none => simp [hdef k hk]
    | null => exact (by rw [show mapDatabaseParams JSON.null = defaultParams from rfl, hdef k hk]; rfl)
    | bool b => exact (by rw [show mapDatabaseParams (JSON.bool b) = defaultParams from rfl, hdef k hk]; rfl)
    | num f => exact (by rw [show mapDatabaseParams (JSON.num f) = defaultParams from rfl, hdef k hk]; rfl)
    | str v => exact (by rw [show mapDatabaseParams (JSON.str v) = defaultParams from rfl, hdef k hk]; rfl)
    | obj m => exact (by rw [show mapDatabaseParams (JSON.obj m) = defaultParams from rfl, hdef k hk]; rfl)
  refine ⟨hsome _ (Or.inl rfl), hsome _ (Or.inr rfl), ?_, by decide, by decide⟩
  intro k hk hno
  cases raw with
  | arr params =>
    rw [(mapDatabaseParams_get?_arr params k (hne k hk))]
    have hnone : params.reverse.find? (fun p => entryKey p == k) = none := by
      rw [List.find?_eq_none]
      intro p hp
      have := hno params rfl p (List.mem_reverse.mp hp)
      simpa using this
    rw [hnone]
    exact hdef k hk
  | null => exact hdef k hk
  | bool b => exact hdef k hk
  | num f => exact hdef k hk
  | str v => exact hdef k hk
  | obj m => exact hdef k hk

/-- C8 on an input that only has a service port. -/
theorem mapDatabaseParams_both_keys_witness :
    StrMap.get? (mapDatabaseParams (JSON.arr [paramRecord "database_service_port" "5432"]))
      "database_hostname" = some "" :=
  (mapDatabaseParams_both_keys (JSON.arr [paramRecord "database_service_port" "5432"])).2.2.1
    "database_hostname" (Or.inl rfl)
    (by
      intro params h p hp
      cases h
      simp only [List.mem_singleton] at hp
      subst hp
      decide)

/-! ## Id coercion -/

theorem toString_neg_natCast (n : Nat) (hn : n ≠ 0) :
    toString (-(n : Int)) = "-" ++ toString n := by
  cases n with
  | zero => exact absurd rfl hn
  | succ k => rfl

theorem roundHalfEven_of_isInteger (f : Float64) (h : f.isInteger = true) :
    f.roundHalfEven = f.magnitude := by
  obtain ⟨neg, mant, exp, hm, hlo, hhi⟩ := f
  cases exp with
  | ofNat e => rfl
  | negSucc e =>
    have hr : mant % 2 ^ (e + 1) = 0 := by
      simpa [Float64.isInteger] using h
    have hpos : 0 < 2 ^ (e + 1) := Nat.two_pow_pos (e + 1)
    simp [Float64.roundHalfEven, Float64.magnitude, hr, hpos]

theorem findShift_spec (n : Nat) :
    ∀ (fuel s t : Nat), s ≤ t → t < s + fuel → n / 2 ^ t < 2 ^ 53 →
      ∃ r, findShift fuel s n = some r ∧ s ≤ r ∧ r ≤ t ∧ n / 2 ^ r < 2 ^ 53 := by
  intro fuel
  induction fuel with
  | zero => intro s t hst ht; omega
  | succ fuel ih =>
    intro s t hst ht hfit
    by_cases hs : n / 2 ^ s < 2 ^ 53
    · exact ⟨s, by rw [findShift, if_pos hs], Nat.le_refl s, hst, hs⟩
    · have hne : s ≠ t := fun h => hs (h ▸ hfit)
      obtain ⟨r, hr, hsr, hrt, hfr⟩ := ih (s + 1) t (by omega) (by omega) hfit
      exact ⟨r, by rw [findShift, if_neg hs]; exact hr, by omega, hrt, hfr⟩

theorem decodeInteger_exact (neg : Bool) (m e : Nat) (hm : m < 2 ^ 53) (he : e ≤ 971) :
    ∃ f, decodeInteger neg (m * 2 ^ e) = some f ∧ f.neg = neg ∧ f.isInteger = true ∧
      f.magnitude = m * 2 ^ e := by
  have hdiv : m * 2 ^ e / 2 ^ e < 2 ^ 53 := by
    rw [Nat.mul_div_cancel _ (Nat.two_pow_pos e)]
    exact hm
  obtain ⟨s, hs, _, hse, hq⟩ :=
    findShift_spec (m * 2 ^ e) 973 0 e (Nat.zero_le e) (by omega) hdiv
  have hn : m * 2 ^ e = (m * 2 ^ (e - s)) * 2 ^ s := by
    rw [Nat.mul_assoc, ← Nat.pow_add, Nat.sub_add_cancel hse]
  have hr : m * 2 ^ e % 2 ^ s = 0 := by
    rw [hn]
    exact Nat.mul_mod_left _ _
  have hqeq : m * 2 ^ e / 2 ^ s = m * 2 ^ (e - s) := by
    rw [hn]
    exact Nat.mul_div_cancel _ (Nat.two_pow_pos s)
  rw [hqeq] at hq
  have h0 : 2 * 0 < 2 ^ s := by
    rw [Nat.mul_zero]
    exact Nat.two_pow_pos s
  have hne : ¬ (m * 2 ^ (e - s) = 2 ^ 53) := Nat.ne_of_lt hq
  have hcond : m * 2 ^ (e - s) < 2 ^ 53 ∧ (-1074 : Int) ≤ (s : Int) ∧ (s : Int) ≤ 971 := by
    refine ⟨hq, ?_, ?_⟩ <;> omega
  refine ⟨{ neg := neg, mant := m * 2 ^ (e - s), exp := (s : Int),
            mant_lt := hcond.1, exp_ge := hcond.2.1, exp_le := hcond.2.2 }, ?_, rfl, rfl, ?_⟩
  · simp only [decodeInteger, hs, hr, hqeq, h0, if_true, hne, if_false, Float64.ofParts,
      dif_pos hcond]
  · exact hn.symm

theorem idToString_num_of_isInteger (sprintV : JSON → String) (f : Float64)
    (hint : f.isInteger = true) (hnz : ¬ (f.neg = true ∧ f.magnitude = 0)) :
    idToString sprintV (JSON.num f) = toString f.toInt := by
  simp only [idToString, sprintF0, roundHalfEven_of_isInteger f hint, Float64.toInt]
  cases hneg : f.neg with
  | false => rfl
  | true =>
    have hmag : f.magnitude ≠ 0 := fun h0 => hnz ⟨hneg, h0⟩
    simp only [if_true]
    exact (toString_neg_natCast f.magnitude hmag).symm

theorem idToString_num_negative_zero (sprintV : JSON → String) (f : Float64)
    (hint : f.isInteger = true) (hneg : f.neg = true) (hmag : f.magnitude = 0) :
    idToString sprintV (JSON.num f) = "-0" := by
  simp only [idToString, sprintF0, roundHalfEven_of_isInteger f hint, hneg, hmag, if_true]
  decide

/-- C9, as the code has it: the coercion `resourceDatabaseCreate` applies to
`data.database.id` and the one `resourceDatabaseRead` applies to `engineId`
and `regionId` are the same function; it maps every `float64` with zero
fractional part other than negative zero to the decimal string of that
integer, so a JSON number with zero fractional part that `float64`
represents exactly (a significand below `2^53` times a power of two, which
covers every integer up to `2^53`; 42.0 gives `"42"`, 501 gives `"501"`)
gives the decimal string of that integer; a JSON number that `float64` does
not represent exactly reaches the coercion rounded by the decoder
(9007199254740993 gives `"9007199254740992"`); negative zero gives `"-0"`;
and every string maps to itself. -/
theorem idToString_integer_or_string (sprintV : JSON → String) :
    (∀ v : JSON, createDatabaseId sprintV v = idToString sprintV v) ∧
    (∀ f : Float64, f.isInteger = true → ¬ (f.neg = true ∧ f.magnitude = 0) →
      idToString sprintV (JSON.num f) = toString f.toInt) ∧
    (∀ (neg : Bool) (m e : Nat), m < 2 ^ 53 → e ≤ 971 → ¬ (neg = true ∧ m = 0) →
      ∃ f, decodeInteger neg (m * 2 ^ e) = some f ∧
        idToString sprintV (JSON.num f) = toString (signedInt neg (m * 2 ^ e))) ∧
    (∃ f, decodeInteger false 9007199254740993 = some f ∧
      idToString sprintV (JSON.num f) = "9007199254740992") ∧
    (∃ f, decodeInteger true 0 = some f ∧ idToString sprintV (JSON.num f) = "-0") ∧
    (∀ v : String, idToString sprintV (JSON.str v) = v) ∧
    (∃ f, decodeInteger false 42 = some f ∧ idToString sprintV (JSON.num f) = "42") ∧
    (∃ f, decodeInteger false 501 = some f ∧ idToString sprintV (JSON.num f) = "501") := by
  have hexact : ∀ (neg : Bool) (m e : Nat), m < 2 ^ 53 → e ≤ 971 → ¬ (neg = true ∧ m = 0) →
      ∃ f, decodeInteger neg (m * 2 ^ e) = some f ∧
        idToString sprintV (JSON.num f) = toString (signedInt neg (m * 2 ^ e)) := by
    intro neg m e hm he hnz
    obtain ⟨f, hf, hneg, hint, hmag⟩ := decodeInteger_exact neg m e hm he
    refine ⟨f, hf, ?_⟩
    have hnz2 : ¬ (f.neg = true ∧ f.magnitude = 0) := by
      rintro ⟨h1, h2⟩
      rw [hmag] at h2
      have hpos : 0 < 2 ^ e := Nat.two_pow_pos e
      have hm0 : m = 0 := by
        rcases Nat.mul_eq_zero.mp h2 with h | h
        · exact h
        · omega
      exact hnz ⟨hneg ▸ h1, hm0⟩
    rw [idToString_num_of_isInteger sprintV f hint hnz2]
    simp only [Float64.toInt, signedInt, hneg, hmag]
  have hround : (decodeInteger false 9007199254740993).map sprintF0
      = some "9007199254740992" := by decide
  refine ⟨?_, idToString_num_of_isInteger sprintV, hexact, ?_, ?_, fun v => rfl, ?_, ?_⟩
  · intro v
    cases v <;> rfl
  · cases hd : decodeInteger false 9007199254740993 with
    | none => rw [hd] at hround; cases hround
    | some f =>
      rw [hd] at hround
      exact ⟨f, rfl, Option.some.inj hround⟩
  · obtain ⟨f, hf, hneg, hint, hmag⟩ := decodeInteger_exact true 0 0 (by decide) (by decide)
    exact ⟨f, hf, idToString_num_negative_zero sprintV f hint hneg hmag⟩
  · obtain ⟨f, hf, h⟩ := hexact false 42 0 (by decide) (by decide) (by decide)
    exact ⟨f, hf, h⟩
  · obtain ⟨f, hf, h⟩ := hexact false 501 0 (by decide) (by decide) (by decide)
    exact ⟨f, hf, h⟩

/-- C9 on the ids -7 and 12 (as `3 * 2^2`) read from the response. -/
theorem idToString_integer_or_string_witness :
    (∃ f, decodeInteger true (7 * 2 ^ 0) = some f ∧
      idToString demoSprintV (JSON.num f) = toString (signedInt true (7 * 2 ^ 0))) ∧
    (∃ f, decodeInteger false (3 * 2 ^ 2) = some f ∧
      idToString demoSprintV (JSON.num f) = toString (signedInt false (3 * 2 ^ 2))) ∧
    idToString demoSprintV (JSON.num { neg := false, mant := 24, exp := -1 })
      = toString (Float64.toInt { neg := false, mant := 24, exp := -1 }) :=
  have h := idToString_integer_or_string demoSprintV
  ⟨h.2.2.1 true 7 0 (by decide) (by decide) (by decide),
    h.2.2.1 false 3 2 (by decide) (by decide) (by decide),
    h.2.1 { neg := false, mant := 24, exp := -1 } (by decide) (by decide)⟩

/-- C9 as stated fails at two JSON numbers with zero fractional part: `-0`
is decoded to negative zero and printed `"-0"`, not `"0"`; and
9007199254740993 (`2^53 + 1`) is decoded to the nearest `float64`, `2^53`,
and printed `"9007199254740992"`. -/
theorem idToString_not_decimal_string :
    (decodeInteger true 0).map (fun f => idToString demoSprintV (JSON.num f)) = some "-0" ∧
    toString (signedInt true 0) = "0" ∧
    (decodeInteger false 9007199254740993).map (fun f => idToString demoSprintV (JSON.num f))
      = some "9007199254740992" ∧
    toString (signedInt false 9007199254740993) = "9007199254740993" := by
  decide

/-! ## Provisioning wait -/

theorem credentialsAreReady_iff (data : List (String × JSON)) :
    credentialsAreReady data = true ↔
      extractedHostname data ≠ "" ∧ extractedPort data ≠ "" ∧
      extractedUsername data ≠ "" ∧ extractedPassword data ≠ "" := by
  unfold credentialsAreReady extractedHostname extractedPort extractedUsername
    extractedPassword
  by_cases h : StrMap.get (mapDatabaseParams (JSON.index data "databaseParams"))
      "database_hostname" = "" ∨
      StrMap.get (mapDatabaseParams (JSON.index data "databaseParams"))
      "database_service_port" = ""
  · simp only [h, if_true]
    constructor
    · intro hf; cases hf
    · intro hall
      rcases h with h | h
      · exact absurd h hall.1
      · exact absurd h hall.2.1
  · simp only [h, if_false, decide_eq_true_eq]
    have h1 : StrMap.get (mapDatabaseParams (JSON.index data "databaseParams"))
        "database_hostname" ≠ "" := fun e => h (Or.inl e)
    have h2 : StrMap.get (mapDatabaseParams (JSON.index data "databaseParams"))
        "database_service_port" ≠ "" := fun e => h (Or.inr e)
    constructor
    · intro hu; exact ⟨h1, h2, hu.1, hu.2⟩
    · intro hall; exact ⟨hall.2.2.1, hall.2.2.2⟩

/-- C10: on every response object the poll function reports
`"waiting_credentials"` whenever the extracted hostname, service port,
username or password is empty, whatever the backend status; it reports the
backend's own status string when all four are non-empty; so it reports the
target state `"deployed"` only on a response with all four non-empty whose
backend status is `"deployed"`. -/
theorem refresh_reports_state (msg : String) (data : List (String × JSON))
    (sent : List Request) :
    ((extractedHostname data = "" ∨ extractedPort data = "" ∨
        extractedUsername data = "" ∨ extractedPassword data = "") →
      (refreshOn (gotObject msg data sent)).state? = some "waiting_credentials") ∧
    ((extractedHostname data ≠ "" ∧ extractedPort data ≠ "" ∧
        extractedUsername data ≠ "" ∧ extractedPassword data ≠ "") →
      (refreshOn (gotObject msg data sent)).state? = some (backendStatus data)) ∧
    ((refreshOn (gotObject msg data sent)).state? = some "deployed" →
      (extractedHostname data ≠ "" ∧ extractedPort data ≠ "" ∧
        extractedUsername data ≠ "" ∧ extractedPassword data ≠ "") ∧
      backendStatus data = "deployed") := by
  have hready := credentialsAreReady_iff data
  by_cases hr : credentialsAreReady data = true
  · have hall := hready.mp hr
    have hst : (refreshOn (gotObject msg data sent)).state? = some (backendStatus data) := by
      simp [refreshOn, gotObject, hr, Poll.state?, backendStatus]
    refine ⟨?_, fun _ => hst, ?_⟩
    · intro hempty
      rcases hempty with h | h | h | h
      · exact absurd h hall.1
      · exact absurd h hall.2.1
      · exact absurd h hall.2.2.1
      · exact absurd h hall.2.2.2
    · intro hdep
      rw [hst] at hdep
      exact ⟨hall, Option.some.inj hdep⟩
  · have hst : (refreshOn (gotObject msg data sent)).state? = some "waiting_credentials" := by
      simp [refreshOn, gotObject, hr, Poll.state?]
    refine ⟨fun _ => hst, ?_, ?_⟩
    · intro hall
      exact absurd (hready.mpr hall) hr
    · intro hdep
      rw [hst] at hdep
      exact absurd (Option.some.inj hdep) (by decide)

/-- C10 on a response whose backend status is `deployed` but whose user has an
empty password. -/
theorem refresh_reports_state_witness :
    (refreshOn (gotObject "ok"
      [("status", JSON.str "deployed"),
        ("databaseParams", JSON.arr [paramRecord "database_hostname" "h1",
          paramRecord "database_service_port" "5432"]),
        ("databaseUsers", JSON.arr [userRecord "root" "" "root"])] [])).state?
      = some "waiting_credentials" :=
  (refresh_reports_state "ok"
    [("status", JSON.str "deployed"),
      ("databaseParams", JSON.arr [paramRecord "database_hostname" "h1",
        paramRecord "database_service_port" "5432"]),
      ("databaseUsers", JSON.arr [userRecord "root" "" "root"])] []).1
    (Or.inr (Or.inr (Or.inl (by decide))))

/-! ## Read and Delete on a transport error -/

theorem readOn_error (sprintV : JSON → String) (d : ResourceData) (got : Run) (err : Error)
    (herr : got.err = some err) :
    (∀ e, err = Error.api e → e.StatusCode = 404 →
      readOn sprintV d got = OpResult.returned (d.SetId "") []) ∧
    ((∀ e, err = Error.api e → e.StatusCode ≠ 404) →
      readOn sprintV d got = OpResult.returned d [Diagnostic.error err]) := by
  constructor
  · intro e he h404
    subst he
    simp [readOn, herr, h404]
  · intro hother
    cases err with
    | api e =>
      have hne := hother e rfl
      simp [readOn, herr, hne]
    | marshaling cause => simp [readOn, herr]
    | creatingRequest => simp [readOn, herr]
    | emptyToken => simp [readOn, herr]
    | recreatingRequest => simp [readOn, herr]
    | makingRequest cause => simp [readOn, herr]
    | readingBody cause => simp [readOn, herr]
    | unmarshaling cause => simp [readOn, herr]

theorem deleteOn_error (d : ResourceData) (got : Run) (err : Error)
    (herr : got.err = some err) :
    (∀ e, err = Error.api e → e.StatusCode = 404 →
      deleteOn d got = OpResult.returned (d.SetId "") []) ∧
    ((∀ e, err = Error.api e → e.StatusCode ≠ 404) →
      deleteOn d got = OpResult.returned d [Diagnostic.error err]) := by
  constructor
  · intro e he h404
    subst he
    simp [deleteOn, herr, h404]
  · intro hother
    cases err with
    | api e =>
      have hne := hother e rfl
      simp [deleteOn, herr, hne]
    | marshaling cause => simp [deleteOn, herr]
    | creatingRequest => simp [deleteOn, herr]
    | emptyToken => simp [deleteOn, herr]
    | recreatingRequest => simp [deleteOn, herr]
    | makingRequest cause => simp [deleteOn, herr]
    | readingBody cause => simp [deleteOn, herr]
    | unmarshaling cause => simp [deleteOn, herr]

/-- C11: for Read and for Delete, when the transport call returns an
`APIError` with status 404 the operation sets the identity to the empty
string and returns no diagnostics; when it returns any other error the
operation returns that error as an error diagnostic and leaves the resource
data, its identity included, unchanged. -/
theorem read_delete_not_found (lib : Lib) (net : Transport) (c : Client)
    (sprintV : JSON → String) (d : ResourceData) :
    (∀ e, (Client.Get lib net c ("/api/v1/databases/" ++ d.id)).err = some (Error.api e) →
      e.StatusCode = 404 →
      resourceDatabaseRead lib net c sprintV d = OpResult.returned (d.SetId "") [] ∧
      (d.SetId "").id = "") ∧
    (∀ err, (Client.Get lib net c ("/api/v1/databases/" ++ d.id)).err = some err →
      (∀ e, err = Error.api e → e.StatusCode ≠ 404) →
      resourceDatabaseRead lib net c sprintV d = OpResult.returned d [Diagnostic.error err]) ∧
    (∀ e, (Client.Delete lib net c ("/api/v1/databases/" ++ d.id)).err = some (Error.api e) →
      e.StatusCode = 404 →
      resourceDatabaseDelete lib net c d = OpResult.returned (d.SetId "") [] ∧
      (d.SetId "").id = "") ∧
    (∀ err, (Client.Delete lib net c ("/api/v1/databases/" ++ d.id)).err = some err →
      (∀ e, err = Error.api e → e.StatusCode ≠ 404) →
      resourceDatabaseDelete lib net c d = OpResult.returned d [Diagnostic.error err]) := by
  refine ⟨?_, ?_, ?_, ?_⟩
  · intro e herr h404
    exact ⟨(readOn_error sprintV d _ _ herr).1 e rfl h404, rfl⟩
  · intro err herr hother
    exact (readOn_error sprintV d _ _ herr).2 hother
  · intro e herr h404
    exact ⟨(deleteOn_error d _ _ herr).1 e rfl h404, rfl⟩
  · intro err herr hother
    exact (deleteOn_error d _ _ herr).2 hother

/-- C11 on a Read answered 404, and on a Delete answered 500 and a Delete whose
three attempts all fail at the network level. -/
theorem read_delete_not_found_witness :
    resourceDatabaseRead demoLib (scripted [answer 0 404]) demoClient demoSprintV
        { id := "7", attrs := [("name", JSON.str "db")] }
      = OpResult.returned { id := "", attrs := [("name", JSON.str "db")] } [] ∧
    resourceDatabaseDelete demoLib (scripted [answer 0 500]) demoClient
        { id := "7", attrs := [("name", JSON.str "db")] }
      = OpResult.returned { id := "7", attrs := [("name", JSON.str "db")] }
          [Diagnostic.error (Error.api { StatusCode := 500, Message := "" })] ∧
    resourceDatabaseDelete demoLib (scripted []) demoClient
        { id := "7", attrs := [("name", JSON.str "db")] }
      = OpResult.returned { id := "7", attrs := [("name", JSON.str "db")] }
          [Diagnostic.error (Error.makingRequest "refused")] :=
  ⟨((read_delete_not_found demoLib (scripted [answer 0 404]) demoClient demoSprintV
      { id := "7", attrs := [("name", JSON.str "db")] }).1
      { StatusCode := 404, Message := "" } rfl rfl).1,
    (read_delete_not_found demoLib (scripted [answer 0 500]) demoClient demoSprintV
      { id := "7", attrs := [("name", JSON.str "db")] }).2.2.2
      (Error.api { StatusCode := 500, Message := "" }) rfl
      (fun e he => by cases he; decide),
    (read_delete_not_found demoLib (scripted []) demoClient demoSprintV
      { id := "7", attrs := [("name", JSON.str "db")] }).2.2.2
      (Error.makingRequest "refused") rfl
      (fun e he => by cases he)⟩

/-! ## Stripe URL extraction -/

/-- C12: `extractStripeCheckoutURL` returns a non-empty string exactly when the
response object has a `stripeCheckoutSession` that is an object whose `url`
is a non-empty string, and then returns that url; when
`stripeCheckoutSession` is absent, null, not an object, or has a missing,
non-string or empty `url`, it returns `""`. -/
theorem extractStripeCheckoutURL_populated (data : List (String × JSON)) :
    (extractStripeCheckoutURL data ≠ "" ↔
      ∃ sessionMap url, data.lookup "stripeCheckoutSession" = some (JSON.obj sessionMap) ∧
        sessionMap.lookup "url" = some (JSON.str url) ∧ url ≠ "") ∧
    (∀ sessionMap url, data.lookup "stripeCheckoutSession" = some (JSON.obj sessionMap) →
      sessionMap.lookup "url" = some (JSON.str url) → url ≠ "" →
      extractStripeCheckoutURL data = url) ∧
    (data.lookup "stripeCheckoutSession" = none → extractStripeCheckoutURL data = "") ∧
    (data.lookup "stripeCheckoutSession" = some JSON.null →
      extractStripeCheckoutURL data = "") ∧
    (∀ v, data.lookup "stripeCheckoutSession" = some v → (∀ m, v ≠ JSON.obj m) →
      extractStripeCheckoutURL data = "") ∧
    (∀ sessionMap, data.lookup "stripeCheckoutSession" = some (JSON.obj sessionMap) →
      (sessionMap.lookup "url" = none ∨
        (∃ v, sessionMap.lookup "url" = some v ∧ ∀ url, v ≠ JSON.str url) ∨
        sessionMap.lookup "url" = some (JSON.str "")) →
      extractStripeCheckoutURL data = "") := by
  have hpop : ∀ sessionMap url,
      data.lookup "stripeCheckoutSession" = some (JSON.obj sessionMap) →
      sessionMap.lookup "url" = some (JSON.str url) → url ≠ "" →
      extractStripeCheckoutURL data = url := by
    intro sessionMap url hs hu hne
    simp [extractStripeCheckoutURL, hs, JSON.index, hu, JSON.asString, hne]
  have hnotobj : ∀ v, data.lookup "stripeCheckoutSession" = some v → (∀ m, v ≠ JSON.obj m) →
      extractStripeCheckoutURL data = "" := by
    intro v hs hv
    cases v with
    | obj m => exact absurd rfl (hv m)
    | null => simp [extractStripeCheckoutURL, hs]
    | bool b => simp [extractStripeCheckoutURL, hs]
    | num f => simp [extractStripeCheckoutURL, hs]
    | str x => simp [extractStripeCheckoutURL, hs]
    | arr l => simp [extractStripeCheckoutURL, hs]
  have habsent : data.lookup "stripeCheckoutSession" = none →
      extractStripeCheckoutURL data = "" := by
    intro hs
    simp [extractStripeCheckoutURL, hs]
  have hbad : ∀ sessionMap, data.lookup "stripeCheckoutSession" = some (JSON.obj sessionMap) →
      (sessionMap.lookup "url" = none ∨
        (∃ v, sessionMap.lookup "url" = some v ∧ ∀ url, v ≠ JSON.str url) ∨
        sessionMap.lookup "url" = some (JSON.str "")) →
      extractStripeCheckoutURL data = "" := by
    intro sessionMap hs hu
    rcases hu with hu | ⟨v, hu, hv⟩ | hu
    · simp [extractStripeCheckoutURL, hs, JSON.index, hu, JSON.asString]
    · cases v with
      | str x => exact absurd rfl (hv x)
      | null => simp [extractStripeCheckoutURL, hs, JSON.index, hu, JSON.asString]
      | bool b => simp [extractStripeCheckoutURL, hs, JSON.index, hu, JSON.asString]
      | num f => simp [extractStripeCheckoutURL, hs, JSON.index, hu, JSON.asString]
      | arr l => simp [extractStripeCheckoutURL, hs, JSON.index, hu, JSON.asString]
      | obj m => simp [extractStripeCheckoutURL, hs, JSON.index, hu, JSON.asString]
    · simp [extractStripeCheckoutURL, hs, JSON.index, hu, JSON.asString]
  refine ⟨⟨?_, ?_⟩, hpop, habsent, fun hs => hnotobj _ hs (fun m h => by cases h), hnotobj,
    hbad⟩
  · intro hne
    cases hs : data.lookup "stripeCheckoutSession" with
    | none => exact absurd (habsent hs) hne
    | some v =>
      cases v with
      | obj sessionMap =>
        cases hu : sessionMap.lookup "url" with
        | none => exact absurd (hbad sessionMap hs (Or.inl hu)) hne
        | some w =>
          cases w with
          | str url =>
            by_cases hempty : url = ""
            · subst hempty
              exact absurd (hbad sessionMap hs (Or.inr (Or.inr hu))) hne
            · exact ⟨sessionMap, url, rfl, hu, hempty⟩
          | null =>
            exact absurd (hbad sessionMap hs
              (Or.inr (Or.inl ⟨_, hu, fun url h => by cases h⟩))) hne
          | bool b =>
            exact absurd (hbad sessionMap hs
              (Or.inr (Or.inl ⟨_, hu, fun url h => by cases h⟩))) hne
          | num f =>
            exact absurd (hbad sessionMap hs
              (Or.inr (Or.inl ⟨_, hu, fun url h => by cases h⟩))) hne
          | arr l =>
            exact absurd (hbad sessionMap hs
              (Or.inr (Or.inl ⟨_, hu, fun url h => by cases h⟩))) hne
          | obj m =>
            exact absurd (hbad sessionMap hs
              (Or.inr (Or.inl ⟨_, hu, fun url h => by cases h⟩))) hne
      | null => exact absurd (hnotobj _ hs (fun m h => by cases h)) hne
      | bool b => exact absurd (hnotobj _ hs (fun m h => by cases h)) hne
      | num f => exact absurd (hnotobj _ hs (fun m h => by cases h)) hne
      | str x => exact absurd (hnotobj _ hs (fun m h => by cases h)) hne
      | arr l => exact absurd (hnotobj _ hs (fun m h => by cases h)) hne
  · rintro ⟨sessionMap, url, hs, hu, hne⟩
    rw [hpop sessionMap url hs hu hne]
    exact hne

/-- C12 on a response with a populated checkout session, one with a null
session and one whose session has an empty url. -/
theorem extractStripeCheckoutURL_populated_witness :
    extractStripeCheckoutURL [("status", JSON.str "billing_pending"),
      ("stripeCheckoutSession", JSON.obj [("id", JSON.str "cs_1"),
        ("url", JSON.str "https://checkout.stripe.com/c/pay")])]
      = "https://checkout.stripe.com/c/pay" ∧
    extractStripeCheckoutURL [("stripeCheckoutSession", JSON.null)] = "" ∧
    extractStripeCheckoutURL [("stripeCheckoutSession", JSON.obj [("url", JSON.str "")])]
      = "" :=
  ⟨(extractStripeCheckoutURL_populated [("status", JSON.str "billing_pending"),
      ("stripeCheckoutSession", JSON.obj [("id", JSON.str "cs_1"),
        ("url", JSON.str "https://checkout.stripe.com/c/pay")])]).2.1
      [("id", JSON.str "cs_1"), ("url", JSON.str "https://checkout.stripe.com/c/pay")]
      "https://checkout.stripe.com/c/pay" rfl rfl (by decide),
    (extractStripeCheckoutURL_populated [("stripeCheckoutSession", JSON.null)]).2.2.2.1 rfl,
    (extractStripeCheckoutURL_populated
      [("stripeCheckoutSession", JSON.obj [("url", JSON.str "")])]).2.2.2.2.2
      [("url", JSON.str "")] rfl (Or.inr (Or.inr rfl))⟩

end Filess
